import Mathlib

/-!
Verification development for the zoning extraction/normalization pipeline
(`backend/app/services/requirements_processor.py`) and the accuracy scorer
(`backend/app/services/ab_testing_service.py`).

The Python code is shallowly embedded: dictionaries become association
lists, JSON values become an inductive `Json` type, Python `float` becomes
`PyFloat` (an exact rational together with the non-finite values `nan`,
`inf`, `ninf`; IEEE rounding is abstracted away, which is irrelevant to the
properties proved here), and the external database becomes an explicit
association-list `Store` with upsert semantics.  Functions are given the
same names as their Python sources where Lean allows it.
-/

/-! ## Python string primitives -/

/-- Whitespace characters recognised by Python's `str.strip()` (ASCII subset). -/
def pyWsChar (c : Char) : Bool :=
  c = ' ' || c = '\t' || c = '\n' || c = '\r' || c = '\x0b' || c = '\x0c'

/-- Whitespace class `\s` of Python regular expressions (ASCII subset). -/
def reWsChar (c : Char) : Bool :=
  c = ' ' || c = '\t' || c = '\n' || c = '\r' || c = '\x0b' || c = '\x0c'

def stripChars (cs : List Char) : List Char :=
  ((cs.dropWhile pyWsChar).reverse.dropWhile pyWsChar).reverse

/-- Python `str.strip()`. -/
def pyStrip (s : String) : String := ⟨stripChars s.data⟩

/-- Python `str.lower()` (ASCII). -/
def lowerStr (s : String) : String := ⟨s.data.map Char.toLower⟩

/-- Python `str.upper()` (ASCII). -/
def upperStr (s : String) : String := ⟨s.data.map Char.toUpper⟩

def listStartsWith : List Char → List Char → Bool
  | [], _ => true
  | _ :: _, [] => false
  | p :: ps, c :: cs => p = c && listStartsWith ps cs

/-- Python substring containment `pat in s` for character lists. -/
def containsSub (cs pat : List Char) : Bool :=
  match cs with
  | [] => pat.isEmpty
  | _ :: rest => listStartsWith pat cs || containsSub rest pat

/-- Python substring containment `pat in s`. -/
def strContainsSub (s pat : String) : Bool := containsSub s.data pat.data

/-! ## Decimal digit strings

`str(int(x))` is modelled as the list of decimal digits of the integer,
most significant first (each list element stands for one character of the
Python string). -/

def natDigitsRevAux : Nat → Nat → List Nat
  | 0, _ => []
  | _ + 1, 0 => []
  | f + 1, n + 1 => ((n + 1) % 10) :: natDigitsRevAux f ((n + 1) / 10)

/-- Decimal digits of `n`, most significant first; `natDigits 0 = [0]`
mirroring `str(0) = "0"`. -/
def natDigits (n : Nat) : List Nat :=
  if n = 0 then [0] else (natDigitsRevAux n n).reverse

/-- Value denoted by a digit list (`int` of the digit string). -/
def natOfDigits (ds : List Nat) : Nat := ds.foldl (fun a d => a * 10 + d) 0

def digitChar (d : Nat) : Char := Char.ofNat (48 + d)

def natStr (n : Nat) : String := ⟨(natDigits n).map digitChar⟩

def intStr (z : Int) : String :=
  if z < 0 then "-" ++ natStr z.natAbs else natStr z.toNat

def digitVal (c : Char) : Nat := c.toNat - 48

/-- Python `str.isdigit()` for ASCII strings: non-empty and all digits. -/
def isAllDigits (cs : List Char) : Bool := !cs.isEmpty && cs.all Char.isDigit

/-! ## Python floats

Finite values are exact rationals; `nan`, `inf` and `ninf` model the IEEE
non-finite values that Python's `float` can hold (e.g. from `float("NaN")`). -/

inductive PyFloat where
  | finite (q : ℚ)
  | nan
  | inf
  | ninf
deriving DecidableEq

def PyFloat.isFinite : PyFloat → Bool
  | .finite _ => true
  | _ => false

/-- Python float subtraction. -/
def pfSub : PyFloat → PyFloat → PyFloat
  | .nan, _ => .nan
  | _, .nan => .nan
  | .finite a, .finite b => .finite (a - b)
  | .finite _, .inf => .ninf
  | .finite _, .ninf => .inf
  | .inf, .inf => .nan
  | .inf, _ => .inf
  | .ninf, .ninf => .nan
  | .ninf, _ => .ninf

/-- Python float division.  Division by (finite) zero raises
`ZeroDivisionError` in Python; every caller in the embedded code guards
against it, so that case is mapped to `nan` as an unreachable junk value. -/
def pfDiv : PyFloat → PyFloat → PyFloat
  | .nan, _ => .nan
  | _, .nan => .nan
  | .finite a, .finite b => if b = 0 then .nan else .finite (a / b)
  | .finite _, .inf => .finite 0
  | .finite _, .ninf => .finite 0
  | .inf, .finite b => if b < 0 then .ninf else .inf
  | .ninf, .finite b => if b < 0 then .inf else .ninf
  | .inf, .inf => .nan
  | .inf, .ninf => .nan
  | .ninf, .inf => .nan
  | .ninf, .ninf => .nan

/-- Python `abs` on floats. -/
def pfAbs : PyFloat → PyFloat
  | .finite a => .finite |a|
  | .nan => .nan
  | .inf => .inf
  | .ninf => .inf

/-- Python float multiplication by the literal `100`. -/
def pfMul100 : PyFloat → PyFloat
  | .finite a => .finite (a * 100)
  | .nan => .nan
  | .inf => .inf
  | .ninf => .ninf

/-- Python `<=` on floats (any comparison involving `nan` is false). -/
def pfLe : PyFloat → PyFloat → Bool
  | .finite a, .finite b => a ≤ b
  | .nan, _ => false
  | _, .nan => false
  | .ninf, _ => true
  | _, .ninf => false
  | .inf, .inf => true
  | .finite _, .inf => true
  | .inf, .finite _ => false

/-- Python `==` against the float literal `0`. -/
def pfEqZero : PyFloat → Bool
  | .finite a => a = 0
  | _ => false

/-! ## Python `float(str)` conversion

Python's `float()` strips surrounding whitespace and accepts an optional
sign followed by either a decimal literal or the special tokens
`inf`/`infinity`/`nan` (case-insensitively).  This is the conversion that
turns the string `"NaN"` into a NaN float. -/

def lcList (cs : List Char) : List Char := cs.map Char.toLower

def parseDecimalMantissa (cs : List Char) : Option (ℚ × List Char) :=
  let ip := cs.takeWhile Char.isDigit
  let rest1 := cs.drop ip.length
  match rest1 with
  | '.' :: rest2 =>
    let fp := rest2.takeWhile Char.isDigit
    if ip.isEmpty && fp.isEmpty then none
    else
      let ipv : ℚ := (natOfDigits (ip.map digitVal) : ℚ)
      let fpv : ℚ := (natOfDigits (fp.map digitVal) : ℚ) / ((10 : ℚ) ^ fp.length)
      some (ipv + fpv, rest2.drop fp.length)
  | _ =>
    if ip.isEmpty then none
    else some ((natOfDigits (ip.map digitVal) : ℚ), rest1)

def parseExponentPart (cs : List Char) : Option (Int × List Char) :=
  match cs with
  | c :: rest =>
    if c = 'e' || c = 'E' then
      let (esign, rest2) : (Int × List Char) :=
        match rest with
        | '+' :: r => (1, r)
        | '-' :: r => (-1, r)
        | r => (1, r)
      let ed := rest2.takeWhile Char.isDigit
      if ed.isEmpty then none
      else some (esign * (natOfDigits (ed.map digitVal) : Int), rest2.drop ed.length)
    else some (0, cs)
  | [] => some (0, [])

def applyExp (q : ℚ) (e : Int) : ℚ :=
  if 0 ≤ e then q * (10 : ℚ) ^ e.toNat else q / (10 : ℚ) ^ (-e).toNat

/-- Python `float(s)` on strings: `none` models a raised `ValueError`. -/
def pyFloatOfStr (s : String) : Option PyFloat :=
  let cs := stripChars s.data
  let (sgn, body) : (ℚ × List Char) :=
    match cs with
    | '+' :: r => (1, r)
    | '-' :: r => (-1, r)
    | r => (1, r)
  let lb := lcList body
  if lb = "nan".data then some .nan
  else if lb = "inf".data || lb = "infinity".data then
    some (if sgn < 0 then .ninf else .inf)
  else
    match parseDecimalMantissa body with
    | none => none
    | some (m, rest) =>
      match parseExponentPart rest with
      | none => none
      | some (e, rest2) =>
        if rest2.isEmpty then some (.finite (sgn * applyExp m e)) else none

/-- Python `int(s)` on strings: optional sign and decimal digits only. -/
def pyIntOfStr (s : String) : Option Int :=
  let cs := stripChars s.data
  let (neg, body) : (Bool × List Char) :=
    match cs with
    | '+' :: r => (false, r)
    | '-' :: r => (true, r)
    | r => (false, r)
  if isAllDigits body then
    let n : Int := (natOfDigits (body.map digitVal) : Int)
    some (if neg then -n else n)
  else none

/-- Python `int(float)`: truncation toward zero. -/
def pyTrunc (q : ℚ) : Int := if 0 ≤ q then ⌊q⌋ else ⌈q⌉

/-! ## JSON values and `json.loads`

`Json` models the Python values produced by `json.loads`: dictionaries are
association lists in insertion order.  Numbers are exact rationals (the
int/float distinction and IEEE rounding are abstracted; no claim depends on
them). -/

inductive Json where
  | null
  | bool (b : Bool)
  | num (q : ℚ)
  | str (s : String)
  | arr (items : List Json)
  | obj (members : List (String × Json))

def Json.isNull : Json → Bool
  | .null => true
  | _ => false

/-- Python truthiness of a JSON-shaped value. -/
def truthy : Json → Bool
  | .null => false
  | .bool b => b
  | .num q => q ≠ 0
  | .str s => s ≠ ""
  | .arr xs => !xs.isEmpty
  | .obj kvs => !kvs.isEmpty

/-- Dictionary lookup `d.get(k)` on an object's member list (first match). -/
def jget (kvs : List (String × Json)) (k : String) : Option Json :=
  match kvs with
  | [] => none
  | (k2, v) :: rest => if k2 = k then some v else jget rest k

/-- Lookup `d.get(k)` on an arbitrary parsed value: only dictionaries have keys. -/
def jsonGet (j : Json) (k : String) : Option Json :=
  match j with
  | .obj kvs => jget kvs k
  | _ => none

def jsonWs (c : Char) : Bool := c = ' ' || c = '\t' || c = '\n' || c = '\r'

def skipJsonWs (cs : List Char) : List Char := cs.dropWhile jsonWs

def hexVal (c : Char) : Option Nat :=
  if c.isDigit then some (c.toNat - 48)
  else if 'a' ≤ c && c ≤ 'f' then some (c.toNat - 87)
  else if 'A' ≤ c && c ≤ 'F' then some (c.toNat - 55)
  else none

/-- Body of a JSON string literal (after the opening quote). -/
def parseJsonStrBody : Nat → List Char → Option (List Char × List Char)
  | 0, _ => none
  | _ + 1, [] => none
  | f + 1, c :: rest =>
    if c = '"' then some ([], rest)
    else if c = '\\' then
      match rest with
      | [] => none
      | e :: rest2 =>
        if e = 'u' then
          match rest2 with
          | h1 :: h2 :: h3 :: h4 :: rest3 =>
            match hexVal h1, hexVal h2, hexVal h3, hexVal h4 with
            | some a, some b, some c2, some d =>
              (parseJsonStrBody f rest3).map
                (fun p => (Char.ofNat (((a * 16 + b) * 16 + c2) * 16 + d) :: p.1, p.2))
            | _, _, _, _ => none
          | _ => none
        else
          let ec : Option Char :=
            if e = '"' then some '"'
            else if e = '\\' then some '\\'
            else if e = '/' then some '/'
            else if e = 'n' then some '\n'
            else if e = 't' then some '\t'
            else if e = 'r' then some '\r'
            else if e = 'b' then some (Char.ofNat 8)
            else if e = 'f' then some (Char.ofNat 12)
            else none
          match ec with
          | some c2 => (parseJsonStrBody f rest2).map (fun p => (c2 :: p.1, p.2))
          | none => none
    else if c.toNat < 32 then none
    else (parseJsonStrBody f rest).map (fun p => (c :: p.1, p.2))

/-- A strict JSON number literal (`json.loads` grammar, including the
leading-zero restriction). -/
def parseJsonNum (cs : List Char) : Option (Json × List Char) :=
  let (sgn, body) : (ℚ × List Char) :=
    match cs with
    | '-' :: r => (-1, r)
    | r => (1, r)
  let ip := body.takeWhile Char.isDigit
  if ip.isEmpty then none
  else if ip.length > 1 && ip.headD '0' = '0' then none
  else
    let rest1 := body.drop ip.length
    let ipv : ℚ := (natOfDigits (ip.map digitVal) : ℚ)
    let (m, rest2) : (ℚ × List Char) :=
      match rest1 with
      | '.' :: r =>
        let fp := r.takeWhile Char.isDigit
        (ipv + (natOfDigits (fp.map digitVal) : ℚ) / ((10 : ℚ) ^ fp.length),
         r.drop fp.length)
      | r => (ipv, r)
    -- a fraction part must contain at least one digit
    let fracOk : Bool :=
      match rest1 with
      | '.' :: r => !(r.takeWhile Char.isDigit).isEmpty
      | _ => true
    if !fracOk then none
    else
      match parseExponentPart rest2 with
      | none => none
      | some (e, rest3) => some (.num (sgn * applyExp m e), rest3)

mutual

def parseJsonVal : Nat → List Char → Option (Json × List Char)
  | 0, _ => none
  | f + 1, cs =>
    match skipJsonWs cs with
    | [] => none
    | c :: rest =>
      if c = '\x7b' then
        match skipJsonWs rest with
        | '\x7d' :: r2 => some (.obj [], r2)
        | r2 => (parseJsonObjItems f r2).map (fun p => (.obj p.1, p.2))
      else if c = '[' then
        match skipJsonWs rest with
        | ']' :: r2 => some (.arr [], r2)
        | r2 => (parseJsonArrItems f r2).map (fun p => (.arr p.1, p.2))
      else if c = '"' then
        (parseJsonStrBody (f + 1) rest).map (fun p => (.str ⟨p.1⟩, p.2))
      else if c = 't' then
        if rest.take 3 = ['r', 'u', 'e'] then some (.bool true, rest.drop 3) else none
      else if c = 'f' then
        if rest.take 4 = ['a', 'l', 's', 'e'] then some (.bool false, rest.drop 4) else none
      else if c = 'n' then
        if rest.take 3 = ['u', 'l', 'l'] then some (.null, rest.drop 3) else none
      else parseJsonNum (c :: rest)

def parseJsonObjItems : Nat → List Char → Option (List (String × Json) × List Char)
  | 0, _ => none
  | f + 1, cs =>
    match skipJsonWs cs with
    | '"' :: rest =>
      match parseJsonStrBody (f + 1) rest with
      | none => none
      | some (k, r1) =>
        match skipJsonWs r1 with
        | ':' :: r2 =>
          match parseJsonVal f r2 with
          | none => none
          | some (v, r3) =>
            match skipJsonWs r3 with
            | ',' :: r4 =>
              (parseJsonObjItems f r4).map (fun p => ((⟨k⟩, v) :: p.1, p.2))
            | '\x7d' :: r4 => some ([(⟨k⟩, v)], r4)
            | _ => none
        | _ => none
    | _ => none

def parseJsonArrItems : Nat → List Char → Option (List Json × List Char)
  | 0, _ => none
  | f + 1, cs =>
    match parseJsonVal f cs with
    | none => none
    | some (v, r1) =>
      match skipJsonWs r1 with
      | ',' :: r2 => (parseJsonArrItems f r2).map (fun p => (v :: p.1, p.2))
      | ']' :: r2 => some ([v], r2)
      | _ => none

end

/-- Python `json.loads`: parse one value and require only whitespace after it.
`none` models a raised `json.JSONDecodeError`. -/
def jsonLoads (s : String) : Option Json :=
  match parseJsonVal (s.length * 4 + 8) s.data with
  | some (v, rest) => if (skipJsonWs rest).isEmpty then some v else none
  | none => none

/-! ## Response slicing and `_fix_json_string` -/

/-- Slice of `s` between the first opening and the last closing brace,
mirroring `find`/`rfind` and the guard `json_end > json_start`
(`process_grok_response`, tier 2). -/
def sliceBraces (s : String) : Option String :=
  match s.data.findIdx? (· = '\x7b'), (s.data.reverse.findIdx? (· = '\x7d')) with
  | some i, some jr =>
    let j := s.data.length - 1 - jr
    if i ≤ j then some ⟨(s.data.drop i).take (j + 1 - i)⟩ else none
  | _, _ => none

/-- `re.sub(r',(\s*[}\]])', r'\1', ...)`: drop a comma that is followed,
possibly after whitespace, by a closing brace or bracket. -/
def removeTrailingCommasAux : Nat → List Char → List Char
  | 0, cs => cs
  | _ + 1, [] => []
  | f + 1, c :: cs =>
    if c = ',' then
      let ws := cs.takeWhile reWsChar
      match cs.drop ws.length with
      | b :: rest2 =>
        if b = '\x7d' || b = ']' then ws ++ b :: removeTrailingCommasAux f rest2
        else c :: removeTrailingCommasAux f cs
      | [] => c :: removeTrailingCommasAux f cs
    else c :: removeTrailingCommasAux f cs

def isCtrlChar (c : Char) : Bool :=
  c.toNat ≤ 0x1f || (0x7f ≤ c.toNat && c.toNat ≤ 0x9f)

/-- The cleanup `_fix_json_string` is written to perform: strip trailing
commas before closing braces/brackets, then remove control characters.

In the program this transformation is UNREACHABLE: the method calls
`re.sub`, but the module imports only `logging`, `json`, `typing` and
`datetime`, and — unlike the five other methods of the class that use
regular expressions — `_fix_json_string` has no local `import re`, so every
call raises `NameError`.  The definition is kept under this name to state
what the written-but-dead code would compute; the faithful pipeline
(`processGrokResponse`) models the `NameError` path instead. -/
def fixJsonStringIntended (s : String) : String :=
  ⟨(removeTrailingCommasAux s.data.length s.data).filter (fun c => !isCtrlChar c)⟩

/-! ## Footnote cleaning (`_clean_numeric_footnotes`, `_clean_zone_name_footnotes`) -/

def superscriptDigits : List Char :=
  ['¹', '²', '³', '⁴', '⁵', '⁶', '⁷', '⁸', '⁹', '⁰']

def isSuperscriptDigit (c : Char) : Bool := superscriptDigits.contains c

/-- `re.sub(r'\^[0-9]+', '', ...)`: drop a caret followed by digits. -/
def removeCaretDigitsAux : Nat → List Char → List Char
  | 0, cs => cs
  | _ + 1, [] => []
  | f + 1, c :: cs =>
    if c = '^' then
      let ds := cs.takeWhile Char.isDigit
      if ds.isEmpty then c :: removeCaretDigitsAux f cs
      else removeCaretDigitsAux f (cs.drop ds.length)
    else c :: removeCaretDigitsAux f cs

/-- `re.sub(r'\([0-9]+\)', '', ...)`: drop a parenthesised digit group. -/
def removeParenDigitsAux : Nat → List Char → List Char
  | 0, cs => cs
  | _ + 1, [] => []
  | f + 1, c :: cs =>
    if c = '(' then
      let ds := cs.takeWhile Char.isDigit
      if ds.isEmpty then c :: removeParenDigitsAux f cs
      else
        match cs.drop ds.length with
        | ')' :: rest2 => removeParenDigitsAux f rest2
        | _ => c :: removeParenDigitsAux f cs
    else c :: removeParenDigitsAux f cs

/-- The three footnote-marker removals shared by the numeric and the
zone-name cleaners. -/
def removeFootnoteMarks (cs : List Char) : List Char :=
  let c1 := cs.filter (fun c => !isSuperscriptDigit c)
  let c2 := removeCaretDigitsAux c1.length c1
  removeParenDigitsAux c2.length c2

/-- `_clean_numeric_footnotes`: strip footnote markers from the string form
of a numeric value, then aggressively repair suspiciously large all-digit
values by dropping leading footnote digits. -/
def cleanNumericFootnotes (s : String) : String :=
  let v := stripChars s.data
  let cleaned := removeFootnoteMarks v
  let numStr := cleaned.filter (fun c => c ≠ ',' && c ≠ ' ')
  if isAllDigits numStr && numStr.length ≥ 4 then
    let numVal := natOfDigits (numStr.map digitVal)
    if numVal > 50000 then
      if numStr.length = 5 && (numStr.headD '0').isDigit && numStr.headD '0' ≠ '0' then
        let cand := numStr.drop 1
        let candVal := natOfDigits (cand.map digitVal)
        if 1000 ≤ candVal && candVal ≤ 50000 then ⟨cand⟩ else ⟨cleaned⟩
      else if numStr.length = 6 &&
          (["10", "11", "12", "20", "21", "22", "30", "31", "32"].contains
            (⟨numStr.take 2⟩ : String)) then
        let cand := numStr.drop 2
        let candVal := natOfDigits (cand.map digitVal)
        if 1000 ≤ candVal && candVal ≤ 50000 then ⟨cand⟩ else ⟨cleaned⟩
      else ⟨cleaned⟩
    else ⟨cleaned⟩
  else ⟨cleaned⟩

/-- `_clean_zone_name_footnotes`: strip footnote markers from a zone name
and trim the result. -/
def cleanZoneNameFootnotes (zoneName : String) : String :=
  ⟨stripChars (removeFootnoteMarks zoneName.data)⟩

/-! ## `_safe_numeric`, `_safe_integer` and field extraction -/

/-- Python `float(value)` on an arbitrary value: `none` models a raised
`ValueError`/`TypeError`. -/
def pyFloatOf : Json → Option PyFloat
  | .null => none
  | .bool b => some (.finite (if b then 1 else 0))
  | .num q => some (.finite q)
  | .str s => pyFloatOfStr s
  | .arr _ => none
  | .obj _ => none

/-- `_safe_numeric`: convert a value to a float or `None`, cleaning footnote
markers from strings first. -/
def safeNumeric : Json → Option PyFloat
  | .null => none
  | .str s => if s = "null" then none else pyFloatOfStr (cleanNumericFootnotes s)
  | .num q => some (.finite q)
  | .bool b => some (.finite (if b then 1 else 0))
  | .arr _ => none
  | .obj _ => none

/-- `_safe_numeric` applied to the result of a field lookup (an absent field
is Python `None`). -/
def safeNumericOpt : Option Json → Option PyFloat
  | none => none
  | some j => safeNumeric j

/-- `_safe_integer`: convert a value to an int or `None`. -/
def safeInteger : Json → Option Int
  | .null => none
  | .str s => if s = "null" then none else pyIntOfStr s
  | .num q => some (pyTrunc q)
  | .bool b => some (if b then 1 else 0)
  | .arr _ => none
  | .obj _ => none

def safeIntegerOpt : Option Json → Option Int
  | none => none
  | some j => safeInteger j

/-- `_get_nested_dict`: first key whose value is a dictionary. -/
def getNestedDict (kvs : List (String × Json)) : List String → List (String × Json)
  | [] => []
  | k :: ks =>
    match jget kvs k with
    | some (.obj sub) => sub
    | _ => getNestedDict kvs ks

/-- `_extract_field_value`: scan the candidate dictionaries in order, and
within each dictionary the alias keys in order; the first present key wins
(even when its value is `None`). -/
def extractFieldValue : List (List (String × Json)) → List String → Option Json
  | [], _ => none
  | d :: ds, keys =>
    match keys.findSome? (fun k => jget d k) with
    | some v => some v
    | none => extractFieldValue ds keys

/-- Python `str()` of a JSON-shaped value, as used on zone-name values.
Zone names are strings in practice; the numeric case uses the exact
integer/rational form (Python's float formatting is abstracted — no claim
depends on stringified numbers). -/
def pyStr : Json → String
  | .str s => s
  | .null => "None"
  | .bool b => if b then "True" else "False"
  | .num q => if q.den = 1 then intStr q.num else intStr q.num ++ "/" ++ natStr q.den
  | .arr _ => "[list]"
  | .obj _ => "[dict]"

/-- `_extract_zone_name`: first truthy, non-blank zone-name alias, trimmed
and footnote-cleaned; `'Unknown_Zone'` when none is found. -/
def extractZoneName (zoneData : List (String × Json)) : String :=
  let candidates := ["zone_name", "zone", "district", "zoning_district", "name"]
  let pick := candidates.findSome? (fun k =>
    match jget zoneData k with
    | some v =>
      if truthy v && pyStrip (pyStr v) ≠ "" then
        some (cleanZoneNameFootnotes (pyStrip (pyStr v)))
      else none
    | none => none)
  pick.getD "Unknown_Zone"

/-! ## `_fix_contaminated_lot_area` and fallback chains -/

/-- The superscript map of `_fix_contaminated_lot_area` (notably without `⁰`,
matching the regex class `[¹²³⁴⁵⁶⁷⁸⁹]`). -/
def superscriptToDigit (c : Char) : Option Nat :=
  if c = '¹' then some 1 else if c = '²' then some 2 else if c = '³' then some 3
  else if c = '⁴' then some 4 else if c = '⁵' then some 5 else if c = '⁶' then some 6
  else if c = '⁷' then some 7 else if c = '⁸' then some 8 else if c = '⁹' then some 9
  else none

/-- Potential footnote digit taken from the zone name: first superscript
digit if any, else inferred from an `R-1`/`R-2`/`R-3` style zone code. -/
def footnoteDigitOf (zoneName : String) : Option Nat :=
  match zoneName.data.find? (fun c => (superscriptToDigit c).isSome) with
  | some c => superscriptToDigit c
  | none =>
    if strContainsSub zoneName "R-1" || strContainsSub zoneName "R1" then some 1
    else if strContainsSub zoneName "R-2" || strContainsSub zoneName "R2" then some 2
    else if strContainsSub zoneName "R-3" || strContainsSub zoneName "R3" then some 3
    else none

/-- `_fix_contaminated_lot_area` on a present value.  `zoneNameVal` is the
raw `zone_data.get('zone_name', '')` argument; a non-string value there makes
the Python helper fall into its exception handler at the zone-name pattern
and return `_safe_numeric(value)` unchanged, which is modelled explicitly. -/
def fixContaminatedLotAreaJ (jv : Json) (zoneNameVal : Json) : Option PyFloat :=
  if jv.isNull then none
  else
    match safeNumeric jv with
    | none => none
    | some .nan => safeNumeric jv
    | some .inf => safeNumeric jv
    | some .ninf => safeNumeric jv
    | some (.finite q) =>
      -- area_str = str(int(cleaned_area)); a negative value starts with '-'
      -- and therefore matches none of the digit-prefix patterns below.
      let z := pyTrunc q
      if z < 0 then some (.finite q)
      else
        let ds := natDigits z.toNat
        -- Pattern 1: `cleaned_area in contamination_patterns`, the fixed
        -- table of previously observed contamination instances
        if q = 15000 then some (.finite 5000)
        else if q = 28000 then some (.finite 8000)
        else if q = 312000 then some (.finite 12000)
        else if q = 110000 then some (.finite 10000)
        else if q = 115000 then some (.finite 15000)
        else if q = 27500 then some (.finite 7500)
        else if q = 36000 then some (.finite 6000)
        else
          -- Pattern 2: five digits starting with 1/2/3, tail in 3000..20000
          if ds.length = 5 && [1, 2, 3].contains (ds.headD 0) &&
              (3000 ≤ natOfDigits ds.tail && natOfDigits ds.tail ≤ 20000) then
            some (.finite (natOfDigits ds.tail : ℚ))
          else
            match zoneNameVal with
            | .str zoneName =>
              -- Pattern 3: leading digit matching a footnote digit of the zone name
              match footnoteDigitOf zoneName with
              | some d =>
                if ds.headD 0 = d && !ds.tail.isEmpty &&
                    (1000 ≤ natOfDigits ds.tail && natOfDigits ds.tail ≤ 50000) then
                  some (.finite (natOfDigits ds.tail : ℚ))
                else if q > 100000 && ds.length > 4 &&
                    (1000 ≤ natOfDigits ds.tail && natOfDigits ds.tail ≤ 50000) then
                  some (.finite (natOfDigits ds.tail : ℚ))
                else some (.finite q)
              | none =>
                -- Pattern 4: implausibly large value, try dropping one digit
                if q > 100000 && ds.length > 4 &&
                    (1000 ≤ natOfDigits ds.tail && natOfDigits ds.tail ≤ 50000) then
                  some (.finite (natOfDigits ds.tail : ℚ))
                else some (.finite q)
            | _ => some (.finite q)

/-- `_fix_contaminated_lot_area` (an absent lot-area lookup is Python `None`). -/
def fixContaminatedLotArea (v : Option Json) (zoneNameVal : Json) : Option PyFloat :=
  match v with
  | none => none
  | some jv => fixContaminatedLotAreaJ jv zoneNameVal

/-- `_get_frontage_with_fallback`. -/
def getFrontageWithFallback (interior zoneData : List (String × Json)) : Option PyFloat :=
  safeNumericOpt (extractFieldValue [interior, zoneData]
    ["min_lot_frontage_ft", "interior_min_lot_frontage_ft", "frontage",
     "frontage_ft", "street_frontage"])

/-- `_get_width_with_frontage_fallback`: width, falling back to frontage. -/
def getWidthWithFrontageFallback (interior zoneData : List (String × Json)) : Option PyFloat :=
  match safeNumericOpt (extractFieldValue [interior, zoneData]
      ["min_lot_width_ft", "interior_min_lot_width_ft", "width", "width_ft",
       "lot_width"]) with
  | some w => some w
  | none =>
    match getFrontageWithFallback interior zoneData with
    | some f => some f
    | none => none

/-- `_get_depth_with_fallback`: depth, falling back to width (itself after
the frontage fallback). -/
def getDepthWithFallback (interior zoneData : List (String × Json)) : Option PyFloat :=
  match safeNumericOpt (extractFieldValue [interior, zoneData]
      ["min_lot_depth_ft", "interior_min_lot_depth_ft", "depth", "depth_ft",
       "lot_depth"]) with
  | some d => some d
  | none =>
    match getWidthWithFrontageFallback interior zoneData with
    | some w => some w
    | none => none

/-- `_get_accessory_setback_with_fallback`: accessory setback, falling back
to the corresponding principal-building setback found directly on the zone
record. -/
def getAccessorySetbackWithFallback (accessoryYards zoneData : List (String × Json))
    (setbackType : String) (fieldKeys : List String) : Option PyFloat :=
  match safeNumericOpt (extractFieldValue [accessoryYards, zoneData] fieldKeys) with
  | some v => some v
  | none =>
    safeNumericOpt (extractFieldValue [zoneData]
      ["principal_min_" ++ setbackType ++ "_yard_ft",
       setbackType ++ "_yard_ft", setbackType ++ "_setback"])

/-! ## Stored records and the persistence boundary

`requirement_data` is built as a Python dict; it is embedded as an
association list from column names to database values.  The external store
(`client.table('requirements').upsert(..., on_conflict='town,county,state,zone')`)
is an association list keyed by the conflict tuple, with insert-or-update
semantics. -/

inductive DBVal where
  | none
  | float (f : PyFloat)
  | int (n : Int)
  | str (s : String)
deriving DecidableEq

def ofNumOpt : Option PyFloat → DBVal
  | Option.none => DBVal.none
  | Option.some f => DBVal.float f

def ofIntOpt : Option Int → DBVal
  | Option.none => DBVal.none
  | Option.some n => DBVal.int n

abbrev StoreKey := String × String × String × String

abbrev ReqRecord := List (String × DBVal)

abbrev Store := List (StoreKey × ReqRecord)

/-- Upsert on the conflict key `(town, county, state, zone)`: update the
existing row in place, else append a new row. -/
def upsertStore (k : StoreKey) (r : ReqRecord) (st : Store) : Store :=
  if st.any (fun e => e.1 = k) then st.map (fun e => if e.1 = k then (k, r) else e)
  else st ++ [(k, r)]

def lookupStore (k : StoreKey) : Store → Option ReqRecord
  | [] => Option.none
  | e :: rest => if e.1 = k then some e.2 else lookupStore k rest

def countKey (k : StoreKey) (st : Store) : Nat :=
  (st.filter (fun e => e.1 = k)).length

def storeKeys (st : Store) : List StoreKey := st.map Prod.fst

/-- The `requirement_data` dictionary of `_insert_zone_requirements`,
field for field.  The three `datetime.utcnow()` timestamps are abstracted
to a fixed string (wall-clock time is outside the model). -/
def buildRequirementData (jobId town county state : String)
    (zoneData : List (String × Json)) (conf : ℚ) : ReqRecord :=
  let interior := getNestedDict zoneData ["interior_lots", "interior", "interior_lot"]
  let corner := getNestedDict zoneData ["corner_lots", "corner", "corner_lot"]
  let lotReq := getNestedDict zoneData
    ["lot_requirements", "additional_lot_requirements", "lot_req"]
  let principalYards := getNestedDict zoneData
    ["principal_building_yards", "principal_yards", "main_building_yards"]
  let accessoryYards := getNestedDict zoneData
    ["accessory_building_yards", "accessory_yards", "accessory"]
  let coverage := getNestedDict zoneData
    ["coverage_and_height", "coverage", "building_requirements"]
  let floorArea := getNestedDict zoneData
    ["floor_area", "floor_requirements", "area_requirements"]
  let intensity := getNestedDict zoneData
    ["development_intensity", "intensity", "density"]
  [("job_id", DBVal.str jobId),
   ("town", DBVal.str town),
   ("county", DBVal.str county),
   ("state", DBVal.str state),
   ("zone", DBVal.str (extractZoneName zoneData)),
   ("data_source", DBVal.str "AI_Extracted"),
   ("extraction_confidence", DBVal.float (.finite conf)),
   ("interior_min_lot_area_sqft", ofNumOpt (fixContaminatedLotArea
      (extractFieldValue [interior, zoneData]
        ["min_lot_area_sqft", "interior_min_lot_area_sqft", "lot_area",
         "area_sqft", "minimum_area_sqft"])
      ((jget zoneData "zone_name").getD (.str "")))),
   ("interior_min_lot_frontage_ft", ofNumOpt (getFrontageWithFallback interior zoneData)),
   ("interior_min_lot_width_ft", ofNumOpt (getWidthWithFrontageFallback interior zoneData)),
   ("interior_min_lot_depth_ft", ofNumOpt (getDepthWithFallback interior zoneData)),
   ("corner_min_lot_area_sqft", ofNumOpt (safeNumericOpt (jget corner "min_lot_area_sqft"))),
   ("corner_min_lot_frontage_ft", ofNumOpt (safeNumericOpt (jget corner "min_lot_frontage_ft"))),
   ("corner_min_lot_width_ft", ofNumOpt (safeNumericOpt (jget corner "min_lot_width_ft"))),
   ("corner_min_lot_depth_ft", ofNumOpt (safeNumericOpt (jget corner "min_lot_depth_ft"))),
   ("min_circle_diameter_ft", ofNumOpt (safeNumericOpt (jget lotReq "min_circle_diameter_ft"))),
   ("buildable_lot_area_sqft", ofNumOpt (safeNumericOpt (jget lotReq "buildable_lot_area_sqft"))),
   ("principal_front_yard_ft", ofNumOpt (safeNumericOpt (extractFieldValue
      [principalYards, zoneData]
      ["principal_min_front_yard_ft", "front_yard_ft", "front_setback",
       "principal_front_yard_ft"]))),
   ("principal_side_yard_ft", ofNumOpt (safeNumericOpt (extractFieldValue
      [principalYards, zoneData]
      ["principal_min_side_yard_ft", "side_yard_ft", "side_setback",
       "principal_side_yard_ft"]))),
   ("principal_street_side_yard_ft", ofNumOpt (safeNumericOpt (extractFieldValue
      [principalYards, zoneData]
      ["principal_min_street_side_yard_ft", "street_side_yard_ft",
       "street_side_setback"]))),
   ("principal_rear_yard_ft", ofNumOpt (safeNumericOpt (extractFieldValue
      [principalYards, zoneData]
      ["principal_min_rear_yard_ft", "rear_yard_ft", "rear_setback",
       "principal_rear_yard_ft"]))),
   ("principal_street_rear_yard_ft", ofNumOpt (safeNumericOpt (extractFieldValue
      [principalYards, zoneData]
      ["principal_min_street_rear_yard_ft", "street_rear_yard_ft",
       "street_rear_setback"]))),
   ("accessory_front_yard_ft", ofNumOpt (getAccessorySetbackWithFallback
      accessoryYards zoneData "front"
      ["accessory_min_front_yard_ft", "accessory_front_yard_ft",
       "garage_front_setback", "outbuilding_front"])),
   ("accessory_side_yard_ft", ofNumOpt (getAccessorySetbackWithFallback
      accessoryYards zoneData "side"
      ["accessory_min_side_yard_ft", "accessory_side_yard_ft",
       "garage_side_setback", "outbuilding_side"])),
   ("accessory_street_side_yard_ft", ofNumOpt (safeNumericOpt (extractFieldValue
      [accessoryYards, zoneData]
      ["accessory_min_street_side_yard_ft", "accessory_street_side_yard_ft"]))),
   ("accessory_rear_yard_ft", ofNumOpt (getAccessorySetbackWithFallback
      accessoryYards zoneData "rear"
      ["accessory_min_rear_yard_ft", "accessory_rear_yard_ft",
       "garage_rear_setback", "outbuilding_rear"])),
   ("accessory_street_rear_yard_ft", ofNumOpt (safeNumericOpt (extractFieldValue
      [accessoryYards, zoneData]
      ["accessory_min_street_rear_yard_ft", "accessory_street_rear_yard_ft"]))),
   ("max_building_coverage_percent", ofNumOpt (safeNumericOpt (extractFieldValue
      [coverage, zoneData]
      ["max_building_coverage_percent", "building_coverage", "coverage_percent",
       "max_coverage"]))),
   ("max_lot_coverage_percent", ofNumOpt (safeNumericOpt (extractFieldValue
      [coverage, zoneData]
      ["max_lot_coverage_percent", "lot_coverage", "max_lot_coverage", "coverage"]))),
   ("max_height_stories", ofIntOpt (safeIntegerOpt (extractFieldValue
      [coverage, zoneData]
      ["principal_max_height_stories", "max_height_stories", "height_stories",
       "max_stories"]))),
   ("max_height_feet_total", ofNumOpt (safeNumericOpt (extractFieldValue
      [coverage, zoneData]
      ["principal_max_height_feet", "max_height_feet_total", "max_height_feet",
       "height_ft"]))),
   ("min_gross_floor_area_first_floor_sqft",
      ofNumOpt (safeNumericOpt (jget floorArea "min_gross_floor_area_first_floor_sqft"))),
   ("min_gross_floor_area_multistory_sqft",
      ofNumOpt (safeNumericOpt (jget floorArea "min_gross_floor_area_multistory_sqft"))),
   ("max_gross_floor_area_all_structures_sqft",
      ofNumOpt (safeNumericOpt (jget floorArea "max_gross_floor_area_all_structures_sqft"))),
   ("maximum_far", ofNumOpt (safeNumericOpt (extractFieldValue
      [intensity, zoneData]
      ["maximum_far", "max_far", "far", "floor_area_ratio",
       "maximum_floor_area_ratio"]))),
   ("maximum_density_units_per_acre", ofNumOpt (safeNumericOpt (extractFieldValue
      [intensity, zoneData]
      ["maximum_density_units_per_acre", "max_density", "density", "units_per_acre"]))),
   ("extracted_at", DBVal.str "utcnow"),
   ("created_at", DBVal.str "utcnow"),
   ("updated_at", DBVal.str "utcnow")]

/-- Requirement id returned by the store; the database-generated UUID is
abstracted as the composite key. -/
def reqIdOf (k : StoreKey) : String :=
  k.1 ++ "/" ++ k.2.1 ++ "/" ++ k.2.2.1 ++ "/" ++ k.2.2.2

/-- `_insert_zone_requirements`: build the record and upsert it on the
`(town, county, state, zone)` conflict key. -/
def insertZoneRequirements (jobId town county state : String)
    (zoneData : List (String × Json)) (conf : ℚ) (st : Store) : String × Store :=
  let recd := buildRequirementData jobId town county state zoneData conf
  let key : StoreKey := (town, county, state, extractZoneName zoneData)
  (reqIdOf key, upsertStore key recd st)

/-! ## The per-job zone loop with duplicate skipping -/

inductive PEvent where
  | skippedDuplicate (zoneName : String)
  | upserted (key : StoreKey)
  | zoneError
deriving DecidableEq

/-- Composite duplicate-detection key
`f"{town}_{county}_{state}_{zone_name}".lower()`. -/
def dupKeyOf (town county state name : String) : String :=
  lowerStr (town ++ "_" ++ county ++ "_" ++ state ++ "_" ++ name)

/-- The `for i, zone_data in enumerate(zones)` loop of
`process_grok_response`: skip duplicates (first occurrence wins, with an
explicit skipped-duplicate signal), insert the rest.  A non-dictionary zone
entry raises inside the per-zone `try` and is skipped. -/
def processZonesLoop (jobId town county state : String) (conf : ℚ) :
    List Json → List String → Store → List String × Store × List PEvent
  | [], _, st => ([], st, [])
  | z :: rest, seen, st =>
    match z with
    | .obj kvs =>
      let name := extractZoneName kvs
      let zkey := dupKeyOf town county state name
      if zkey ∈ seen then
        let r := processZonesLoop jobId town county state conf rest seen st
        (r.1, r.2.1, .skippedDuplicate name :: r.2.2)
      else
        let p := insertZoneRequirements jobId town county state kvs conf st
        let r := processZonesLoop jobId town county state conf rest (zkey :: seen) p.2
        (p.1 :: r.1, r.2.1, .upserted (town, county, state, name) :: r.2.2)
    | _ =>
      let r := processZonesLoop jobId town county state conf rest seen st
      (r.1, r.2.1, .zoneError :: r.2.2)

/-! ## Location resolution and zone-collection lookup -/

/-- The caller-supplied `document_data` mapping.  Each field is `none` when
the key is absent (the Python code reads them with `dict.get` defaults).
Entries bound to Python `None` are outside the model's domain: in the code
they trip the catch-all exception handler. -/
structure DocumentData where
  municipality : Option String
  county : Option String
  state : Option String
  filename : Option String
  originalFilename : Option String
deriving DecidableEq

def sanitizeChar (c : Char) : Char :=
  if c.isAlpha || c.isDigit || c = '_' || c = '-' then c else '_'

/-- Filename- or job-based synthetic town identifier (the final fallback of
the location priority chain). -/
def fallbackDocTown (dd : DocumentData) (jobId : String) : String :=
  let filename := dd.originalFilename.getD (dd.filename.getD "")
  if filename ≠ "" then
    "Doc_" ++ ⟨((filename.data.takeWhile (· ≠ '.')).map sanitizeChar).take 20⟩
  else
    "Job_" ++ ⟨jobId.data.take 8⟩

/-- Town resolution: user input, else model-extracted town, else synthetic
identifier.  A non-string `extracted_town` is treated as absent. -/
def resolveTown (dd : DocumentData) (parsed : List (String × Json)) (jobId : String) : String :=
  let town := pyStrip (dd.municipality.getD "")
  if town = "" || lowerStr town = "unknown" || lowerStr town = "pending_extraction" then
    match jget parsed "extracted_town" with
    | some (.str et) => if pyStrip et ≠ "" then pyStrip et else fallbackDocTown dd jobId
    | _ => fallbackDocTown dd jobId
  else town

/-- County resolution: user input, else model-extracted county, else
`'Unknown County'`. -/
def resolveCounty (dd : DocumentData) (parsed : List (String × Json)) : String :=
  let county := pyStrip (dd.county.getD "")
  if county = "" || county = "Unknown County" then
    match jget parsed "extracted_county" with
    | some (.str ec) => if pyStrip ec ≠ "" then pyStrip ec else "Unknown County"
    | _ => "Unknown County"
  else county

/-- First zone-collection candidate key present in the parsed document
(`zones = []` when none is). -/
def zonesFromKeys (kvs : List (String × Json)) : Json :=
  match ["zones", "zoning_requirements", "requirements", "extracted_zones",
         "districts"].findSome? (fun k => jget kvs k) with
  | some v => v
  | none => .arr []

/-- A value "looks like" a zone list: a non-empty list whose first element
is a dictionary carrying one of the marker keys. -/
def looksLikeZoneList : Json → Bool
  | .arr (first :: _) =>
    match first with
    | .obj fkvs => ["zone", "district", "zoning", "Zone"].any (fun k => (jget fkvs k).isSome)
    | _ => false
  | _ => false

/-- Fallback scan over all top-level entries for a zone-looking list. -/
def zonesScanFallback (kvs : List (String × Json)) : Json :=
  match kvs.find? (fun kv => looksLikeZoneList kv.2) with
  | some kv => kv.2
  | none => .arr []

/-- The zone collection of a parsed document: candidate keys first, then
the marker-based scan. -/
def zonesOf (kvs : List (String × Json)) : Json :=
  let z0 := zonesFromKeys kvs
  if truthy z0 then z0 else zonesScanFallback kvs

/-- `parsed_data.get('extraction_confidence', 0.7)`; the parameter is typed
`float` in the code, so non-numeric values are outside the model's domain. -/
def confidenceOf (kvs : List (String × Json)) : ℚ :=
  match jget kvs "extraction_confidence" with
  | some (.num q) => q
  | _ => 7 / 10

/-! ## The regex zone-code fallback (`_extract_zones_fallback`) -/

/-- Case-insensitive literal match, returning the remaining input. -/
def matchCaseLit (lit : List Char) (cs : List Char) : Option (List Char) :=
  if (cs.take lit.length).map Char.toLower = lit then some (cs.drop lit.length)
  else none

def idClassChar (c : Char) : Bool := c.isAlpha || c.isDigit || c = '-'

/-- One match attempt of `(?:zone|district)[:\s]*([A-Z0-9\-]+)` (IGNORECASE)
at the head of the input; returns the captured group and the rest. -/
def matchPatZoneLabel (cs : List Char) : Option (String × List Char) :=
  let afterLit : Option (List Char) :=
    match matchCaseLit "zone".data cs with
    | some r => some r
    | none => matchCaseLit "district".data cs
  match afterLit with
  | some r =>
    let r2 := r.dropWhile (fun c => c = ':' || reWsChar c)
    let cap := r2.takeWhile idClassChar
    if cap.isEmpty then none else some (⟨cap⟩, r2.drop cap.length)
  | none => none

/-- One match attempt of `([A-Z]{1,2}-\d+)` (IGNORECASE) at the head of the
input, with the greedy two-letter alternative tried first. -/
def matchTwoLetterCode (cs : List Char) : Option (String × List Char) :=
  match cs with
  | [] => none
  | c1 :: rest1 =>
    if c1.isAlpha then
      let oneLetter : Option (String × List Char) :=
        match rest1 with
        | c2 :: rest2 =>
          if c2 = '-' then
            let ds := rest2.takeWhile Char.isDigit
            if ds.isEmpty then none
            else some (⟨c1 :: '-' :: ds⟩, rest2.drop ds.length)
          else none
        | [] => none
      match rest1 with
      | c2 :: c3 :: rest3 =>
        if c3 = '-' then
          if c2.isAlpha then
            let ds := rest3.takeWhile Char.isDigit
            if ds.isEmpty then oneLetter
            else some (⟨c1 :: c2 :: '-' :: ds⟩, rest3.drop ds.length)
          else oneLetter
        else oneLetter
      | _ => oneLetter
    else none

/-- One match attempt of `([RC]-\d+)` (IGNORECASE) at the head of the input. -/
def matchRCCode (cs : List Char) : Option (String × List Char) :=
  match cs with
  | c1 :: c2 :: rest2 =>
    if c2 = '-' then
      if c1 = 'R' || c1 = 'C' || c1 = 'r' || c1 = 'c' then
        let ds := rest2.takeWhile Char.isDigit
        if ds.isEmpty then none
        else some (⟨c1 :: '-' :: ds⟩, rest2.drop ds.length)
      else none
    else none
  | _ => none

/-- `re.findall`: non-overlapping matches left to right, advancing one
character after a failed attempt. -/
def findallAux (m : List Char → Option (String × List Char)) :
    Nat → List Char → List String
  | 0, _ => []
  | _ + 1, [] => []
  | f + 1, cs@(_ :: rest) =>
    match m cs with
    | some (cap, after) => cap :: findallAux m f after
    | none => findallAux m f rest

def reFindallStr (m : List Char → Option (String × List Char)) (s : String) :
    List String :=
  findallAux m s.length s.data

def dedupFirst (xs : List String) : List String :=
  xs.foldl (fun acc x => if x ∈ acc then acc else acc ++ [x]) []

/-- The set `zones_found` of the regex fallback.  Python accumulates the
three patterns' matches into a `set`; first-seen order stands in for the
unspecified set iteration order (no property proved here depends on it). -/
def fallbackZoneCodes (raw : String) : List String :=
  dedupFirst (reFindallStr matchPatZoneLabel raw ++
    reFindallStr matchTwoLetterCode raw ++ reFindallStr matchRCCode raw)

def fallbackTown (jobId : String) (dd : DocumentData) : String :=
  let town := pyStrip (dd.municipality.getD "")
  if town = "" || lowerStr town = "unknown" then "Fallback_Job_" ++ ⟨jobId.data.take 8⟩
  else town

def fallbackCounty (dd : DocumentData) : String :=
  let c := dd.county.getD ""
  if c = "" then "Unknown County" else c

def fallbackState (dd : DocumentData) : String :=
  let s0 := dd.state.getD "NJ"
  if s0 = "" then "NJ" else s0

/-- Insert one minimal zone stub (`{'zone': zone}`) per found code, at the
fixed low confidence `0.3`. -/
def insertStubs (jobId town county state : String) :
    List String → Store → List String × Store
  | [], st => ([], st)
  | z :: rest, st =>
    let p := insertZoneRequirements jobId town county state [("zone", .str z)] (3 / 10) st
    let r := insertStubs jobId town county state rest p.2
    (p.1 :: r.1, r.2)

/-- Insert every zone of a recovered collection at confidence `0.5`
(parsed-data branch of the fallback); non-dictionary entries fail inside
`_insert_zone_requirements` and yield no id. -/
def insertEachZone (jobId town county state : String) (conf : ℚ) :
    List Json → Store → List String × Store
  | [], st => ([], st)
  | z :: rest, st =>
    match z with
    | .obj kvs =>
      let p := insertZoneRequirements jobId town county state kvs conf st
      let r := insertEachZone jobId town county state conf rest p.2
      (p.1 :: r.1, r.2)
    | _ => insertEachZone jobId town county state conf rest st

/-- `_extract_zones_fallback`: recover zones from a malformed response —
from already-parsed data when supplied, else by the regex zone-code scan,
emitting minimal stubs at confidence `0.3`. -/
def extractZonesFallback (jobId : String) (grokResponse : String)
    (dd : DocumentData) (parsedOpt : Option Json) (st : Store) :
    List String × Store × List PEvent :=
  let town := fallbackTown jobId dd
  let county := fallbackCounty dd
  let state := fallbackState dd
  let parsedZones : Option (List String × Store) :=
    match parsedOpt with
    | some p =>
      if truthy p then
        match p with
        | .obj kvs =>
          match ["zones", "zoning_requirements", "requirements"].findSome?
              (fun k => jget kvs k) with
          | some v =>
            if truthy v then
              match v with
              | .arr xs => some (insertEachZone jobId town county state (1 / 2) xs st)
              | _ => some ([], st)
            else Option.none
          | none => Option.none
        | _ => Option.none
      else Option.none
    | none => Option.none
  match parsedZones with
  | some (ids, st1) => (ids, st1, [])
  | none =>
    let codes := (fallbackZoneCodes grokResponse).filter
      (fun z => z ≠ "" && z.length < 50)
    let r := insertStubs jobId town county state codes st
    (r.1, r.2, [])

/-! ## `process_grok_response`: the tiered parse cascade -/

/-- Processing a successfully parsed (and, if applicable, unwrapped)
document: find the zone collection, resolve the location, run the zone
loop.  A document with no zone collection yields no requirement ids. -/
def afterUnwrap (jobId : String) (parsed : Json) (dd : DocumentData) (st : Store) :
    List String × Store × List PEvent :=
  match parsed with
  | .obj kvs =>
    let zonesJ := zonesOf kvs
    let conf := confidenceOf kvs
    if !truthy zonesJ then ([], st, [])
    else
      match zonesJ with
      | .arr zones =>
        let town := resolveTown dd kvs jobId
        let county := resolveCounty dd kvs
        let state := pyStrip (dd.state.getD "NJ")
        processZonesLoop jobId town county state conf zones [] st
      | _ => ([], st, [])
  | _ => ([], st, [])

/-- Handling of `{'raw_response': ...}` wrappers after a successful parse:
a string payload is re-parsed, and a payload that fails to parse sends the
whole raw response to the fallback. -/
def afterParse (jobId : String) (parsed : Json) (grokResponse : String)
    (dd : DocumentData) (st : Store) : List String × Store × List PEvent :=
  match parsed with
  | .obj kvs =>
    match jget kvs "raw_response" with
    | some (.str s) =>
      match jsonLoads s with
      | some p2 => afterUnwrap jobId p2 dd st
      | none => extractZonesFallback jobId grokResponse dd Option.none st
    | some _ => afterUnwrap jobId parsed dd st
    | none => afterUnwrap jobId parsed dd st
  | _ => afterUnwrap jobId parsed dd st

/-- `process_grok_response`: direct parse first.  On failure, tier 2 slices
between the first `{` and the last `}` and calls `_fix_json_string` — which
always raises `NameError` (it uses `re` with no `import re` in scope).
`NameError` is not a `json.JSONDecodeError`, so it escapes the inner
handler and lands in the outer `except Exception`, which returns the
still-empty requirement-id list with no store write.  The regex fallback is
therefore reached only when the failed response contains no brace pair, or
when a `raw_response` wrapper payload fails to parse.  The function is
total: the catch-all handlers mean no exception reaches the caller. -/
def processGrokResponse (jobId : String) (grokResponse : String)
    (dd : DocumentData) (st : Store) : List String × Store × List PEvent :=
  match jsonLoads grokResponse with
  | some d => afterParse jobId d grokResponse dd st
  | none =>
    match sliceBraces grokResponse with
    | some _ => ([], st, [])
    | none => extractZonesFallback jobId grokResponse dd Option.none st

/-! ## Accuracy scorer (`ab_testing_service.py`) -/

/-- `_calculate_field_accuracy_score`.  The score is always a finite float:
with the Python `max(0.0, ...)` semantics, a NaN or infinite percent
difference (possible only through string-valued fields) collapses to `0.0`. -/
def fieldAccuracyScore (predicted actual : Json) (tolerancePercent : ℚ) : ℚ :=
  if predicted.isNull && actual.isNull then 1
  else if predicted.isNull != actual.isNull then 0
  else
    match pyFloatOf predicted, pyFloatOf actual with
    | some pn, some an =>
      if pfEqZero an then (if pfEqZero pn then 1 else 0)
      else
        let percentDiff := pfMul100 (pfAbs (pfDiv (pfSub pn an) an))
        if pfLe percentDiff (.finite tolerancePercent) then 1
        else
          -- max(0.0, 1.0 - percent_diff / 100.0)
          match pfSub (.finite 1) (pfDiv percentDiff (.finite 100)) with
          | .finite v => if 0 < v then v else 0
          | _ => 0
    | _, _ =>
      -- ValueError/TypeError: fall back to case-insensitive string comparison
      if lowerStr (pyStr predicted) = lowerStr (pyStr actual) then 1 else 0

/-- The fixed AI-field → ground-truth-field alias map of
`_calculate_zone_field_accuracy` (in source order). -/
def fieldMappings : List (String × String) :=
  [("interior_min_lot_area_sqft", "interior_min_lot_area_sqft"),
   ("interior_min_lot_frontage_ft", "interior_min_lot_frontage_ft"),
   ("interior_min_lot_width_ft", "interior_min_lot_width_ft"),
   ("interior_min_lot_depth_ft", "interior_min_lot_depth_ft"),
   ("principal_min_front_yard_ft", "principal_front_yard_ft"),
   ("principal_front_yard_ft", "principal_front_yard_ft"),
   ("principal_min_side_yard_ft", "principal_side_yard_ft"),
   ("principal_side_yard_ft", "principal_side_yard_ft"),
   ("principal_min_rear_yard_ft", "principal_rear_yard_ft"),
   ("principal_rear_yard_ft", "principal_rear_yard_ft"),
   ("max_building_coverage_percent", "max_building_coverage_percent"),
   ("max_lot_coverage_percent", "max_lot_coverage_percent"),
   ("principal_max_height_stories", "max_height_stories"),
   ("max_height_stories", "max_height_stories"),
   ("principal_max_height_feet", "max_height_feet_total"),
   ("max_height_feet_total", "max_height_feet_total"),
   ("maximum_far", "maximum_far"),
   ("max_far", "maximum_far"),
   ("maximum_density_units_per_acre", "maximum_density_units_per_acre")]

/-- One hand-verified ground-truth requirement row (its `zone` column is
NOT NULL in the database, hence a plain field here). -/
structure GtReq where
  zone : String
  fields : List (String × Json)

/-- `_calculate_zone_field_accuracy` (default tolerance 5%): one score per
alias pair present on both sides. -/
def zoneFieldScores (aiZone : List (String × Json)) (gt : GtReq) : List ℚ :=
  fieldMappings.filterMap (fun p =>
    match jget aiZone p.1, jget gt.fields p.2 with
    | some av, some gv => some (fieldAccuracyScore av gv 5)
    | _, _ => none)

/-- `zone.get('zone_name') or zone.get('zone', 'unknown')`, stringified and
uppercased, as used to build the extracted-name set. -/
def aiZoneNameForSet (z : List (String × Json)) : String :=
  let a := (jget z "zone_name").getD .null
  let nm := if truthy a then a else (jget z "zone").getD (.str "unknown")
  upperStr (pyStr nm)

/-- `(ai_zone.get('zone_name') or ai_zone.get('zone', '')).upper()` as used
when matching a ground-truth zone to an extracted zone. -/
def aiZoneNameForMatch (z : List (String × Json)) : String :=
  let a := (jget z "zone_name").getD .null
  let nm := if truthy a then a else (jget z "zone").getD (.str "")
  upperStr (pyStr nm)

structure AccScores where
  overall_accuracy : ℚ
  zone_accuracy : ℚ
  field_accuracy : ℚ
  location_accuracy : ℚ
deriving DecidableEq

/-- `_calculate_accuracy`: zone-identification accuracy, field accuracy over
name-matched zones, fixed location accuracy, and the weighted overall score.
Python's uppercased name `set`s become `Finset String`. -/
def calculateAccuracy (aiZones : List (List (String × Json)))
    (groundTruthReqs : List GtReq) : AccScores :=
  if groundTruthReqs.isEmpty then
    ⟨0, 0, 0, 0⟩
  else
    let gtZoneNames : Finset String :=
      (groundTruthReqs.map (fun r => upperStr r.zone)).toFinset
    let aiZoneNames : Finset String := (aiZones.map aiZoneNameForSet).toFinset
    let zoneAccuracy : ℚ :=
      ((gtZoneNames ∩ aiZoneNames).card : ℚ) / (gtZoneNames.card : ℚ)
    let totalFieldScores : List ℚ :=
      groundTruthReqs.flatMap (fun gt =>
        match aiZones.find? (fun z => aiZoneNameForMatch z = upperStr gt.zone) with
        | some z => zoneFieldScores z gt
        | none => [])
    let fieldAccuracy : ℚ :=
      if totalFieldScores.isEmpty then 0
      else totalFieldScores.sum / (totalFieldScores.length : ℚ)
    ⟨zoneAccuracy * (4 / 10) + fieldAccuracy * (6 / 10),
     zoneAccuracy, fieldAccuracy, 1⟩

/-! ## Theorems

The Batteries rational operations are `@[irreducible]` for performance;
re-marking them semireducible locally lets `decide`/`rfl` evaluate the
embedded pipeline on concrete inputs. -/

section

attribute [local semireducible] Rat.mul Rat.inv Rat.add Rat.sub Rat.ofScientific

lemma fieldAccuracyScore_num_num (p a : ℚ) (ha : a ≠ 0) :
    fieldAccuracyScore (.num p) (.num a) 5 =
      if |p - a| / |a| ≤ 1 / 20 then 1 else max 0 (1 - |p - a| / |a|) := by
  have habs : |(p - a) / a| = |p - a| / |a| := abs_div _ _
  have h100 : (((100 : ℚ)) = 0) = False := by norm_num
  have lhs_eq : fieldAccuracyScore (.num p) (.num a) 5 =
      if |p - a| / |a| * 100 ≤ 5 then (1 : ℚ)
      else if 0 < 1 - |p - a| / |a| * 100 / 100 then 1 - |p - a| / |a| * 100 / 100
      else 0 := by
    simp only [fieldAccuracyScore, Json.isNull, Bool.and_self, Bool.false_and,
      bne_self_eq_false, pyFloatOf, pfEqZero, pfSub, pfDiv, pfAbs, pfMul100, pfLe,
      if_neg ha, habs, decide_eq_true_eq, Bool.false_eq_true, if_false, h100]
  rw [lhs_eq]
  have h100q : ((100 : ℚ)) ≠ 0 := by norm_num
  rw [mul_div_assoc, div_self h100q, mul_one]
  by_cases hle : |p - a| / |a| ≤ 1 / 20
  · rw [if_pos (by linarith), if_pos hle]
  · rw [if_neg (by intro h; exact hle (by linarith)), if_neg hle]
    rcases le_or_lt (1 - |p - a| / |a|) 0 with hv | hv
    · rw [if_neg (not_lt.mpr hv), max_eq_left hv]
    · rw [if_pos hv, max_eq_right (le_of_lt hv)]

/-- C1: per-field score of the accuracy scorer at the default 5% tolerance:
both null → 1.0; exactly one null → 0.0; numeric with ground truth 0 → 1.0
exactly when the extraction is 0; both numeric and non-zero → 1.0 when the
relative difference is at most 5%, else `max 0 (1 - relative_difference)`;
in particular 8200 vs 8000 scores 1.0 and 9200 vs 8000 scores 0.85. -/
theorem C1_field_score_spec :
    (∀ t : ℚ, fieldAccuracyScore .null .null t = 1)
    ∧ (∀ v : Json, v.isNull = false →
        fieldAccuracyScore v .null 5 = 0 ∧ fieldAccuracyScore .null v 5 = 0)
    ∧ (∀ p : ℚ, fieldAccuracyScore (.num p) (.num 0) 5 = if p = 0 then 1 else 0)
    ∧ (∀ p a : ℚ, p ≠ 0 → a ≠ 0 →
        fieldAccuracyScore (.num p) (.num a) 5 =
          if |p - a| / |a| ≤ 1 / 20 then 1 else max 0 (1 - |p - a| / |a|))
    ∧ fieldAccuracyScore (.num 8200) (.num 8000) 5 = 1
    ∧ fieldAccuracyScore (.num 9200) (.num 8000) 5 = 17 / 20 := by
  refine ⟨fun t => rfl, ?_, ?_, fun p a _ ha => fieldAccuracyScore_num_num p a ha,
    by decide, by decide⟩
  · intro v hv
    cases v with
    | null => simp [Json.isNull] at hv
    | bool b => exact ⟨rfl, rfl⟩
    | num q => exact ⟨rfl, rfl⟩
    | str s => exact ⟨rfl, rfl⟩
    | arr xs => exact ⟨rfl, rfl⟩
    | obj kvs => exact ⟨rfl, rfl⟩
  · intro p
    by_cases hp : p = 0
    · subst hp; decide
    · have : fieldAccuracyScore (.num p) (.num 0) 5 = 0 := by
        simp only [fieldAccuracyScore, Json.isNull, Bool.and_self, Bool.false_and,
          bne_self_eq_false, pyFloatOf, pfEqZero, decide_eq_true_eq,
          Bool.false_eq_true, if_false]
        simp [hp]
      rw [this, if_neg hp]

theorem C1_field_score_spec_witness :
    Json.isNull (.num 3) = false ∧ fieldAccuracyScore (.num 3) .null 5 = 0
    ∧ ((3 : ℚ) ≠ 0 ∧ (8000 : ℚ) ≠ 0)
    ∧ fieldAccuracyScore (.num 8200) (.num 8000) 5 = 1 :=
  ⟨rfl, (C1_field_score_spec.2.1 (.num 3) rfl).1, ⟨by norm_num, by norm_num⟩,
    C1_field_score_spec.2.2.2.2.1⟩

/-- C2: for every comparison against a non-empty ground-truth set, the
overall accuracy equals 0.4 times the zone-identification accuracy plus 0.6
times the field accuracy. -/
theorem C2_overall_weighting :
    ∀ (aiZones : List (List (String × Json))) (gtReqs : List GtReq),
      gtReqs ≠ [] →
      (calculateAccuracy aiZones gtReqs).overall_accuracy =
        4 / 10 * (calculateAccuracy aiZones gtReqs).zone_accuracy
          + 6 / 10 * (calculateAccuracy aiZones gtReqs).field_accuracy := by
  intro aiZones gtReqs h
  cases gtReqs with
  | nil => exact absurd rfl h
  | cons g gs =>
    simp only [calculateAccuracy, List.isEmpty_cons, Bool.false_eq_true, if_false]
    ring

theorem C2_overall_weighting_witness :
    ([⟨"R-1", []⟩] : List GtReq) ≠ [] ∧
      (calculateAccuracy [] [⟨"R-1", []⟩]).overall_accuracy =
        4 / 10 * (calculateAccuracy [] [⟨"R-1", []⟩]).zone_accuracy
          + 6 / 10 * (calculateAccuracy [] [⟨"R-1", []⟩]).field_accuracy :=
  ⟨by simp, C2_overall_weighting [] [⟨"R-1", []⟩] (by simp)⟩

/-- Modelled from the claim's wording for comparison (C3): zone accuracy
with names compared case-insensitively on *trimmed* names. -/
def claimZoneAccuracyTrimmed (aiZones : List (List (String × Json)))
    (gtReqs : List GtReq) : ℚ :=
  let gtN := (gtReqs.map (fun r => upperStr (pyStrip r.zone))).toFinset
  let aiN := (aiZones.map (fun z =>
    let a := (jget z "zone_name").getD .null
    let nm := if truthy a then a else (jget z "zone").getD (.str "unknown")
    upperStr (pyStrip (pyStr nm)))).toFinset
  ((gtN ∩ aiN).card : ℚ) / (gtN.card : ℚ)

/-- C3 counterexample: the code compares uppercased names without trimming,
so an extracted name `" R-1"` does not match the ground-truth zone `"R-1"`:
the claim's trimmed comparison predicts accuracy 1, the code returns 0. -/
theorem C3_zone_accuracy_counterexample :
    claimZoneAccuracyTrimmed [[("zone", Json.str " R-1")]] [⟨"R-1", []⟩] = 1
    ∧ (calculateAccuracy [[("zone", Json.str " R-1")]] [⟨"R-1", []⟩]).zone_accuracy = 0 :=
  ⟨by decide, by decide⟩

/-- C3 (amended): the zone-identification accuracy equals the number of
distinct uppercased ground-truth zone names that also appear among the
uppercased extracted zone names, divided by the number of distinct
uppercased ground-truth zone names — case-insensitive but NOT trimmed; in
particular ground truth `{"R-1","C-1"}` with extraction `{"R-1"}` scores 0.5. -/
theorem C3_zone_accuracy_formula :
    (∀ (aiZones : List (List (String × Json))) (gtReqs : List GtReq),
      gtReqs ≠ [] →
      (calculateAccuracy aiZones gtReqs).zone_accuracy =
        ((((gtReqs.map (fun r => upperStr r.zone)).toFinset ∩
            (aiZones.map aiZoneNameForSet).toFinset).card : ℚ) /
          ((gtReqs.map (fun r => upperStr r.zone)).toFinset.card : ℚ)))
    ∧ (calculateAccuracy [[("zone", Json.str "R-1")]]
        [⟨"R-1", []⟩, ⟨"C-1", []⟩]).zone_accuracy = 1 / 2 := by
  refine ⟨?_, by decide⟩
  intro aiZones gtReqs h
  cases gtReqs with
  | nil => exact absurd rfl h
  | cons g gs =>
    simp only [calculateAccuracy, List.isEmpty_cons, Bool.false_eq_true, if_false]

theorem C3_zone_accuracy_formula_witness :
    ([⟨"R-1", []⟩, ⟨"C-1", []⟩] : List GtReq) ≠ [] ∧
      (calculateAccuracy [[("zone", Json.str "R-1")]]
        [⟨"R-1", []⟩, ⟨"C-1", []⟩]).zone_accuracy =
        (((([⟨"R-1", []⟩, ⟨"C-1", []⟩] : List GtReq).map
            (fun r => upperStr r.zone)).toFinset ∩
          (([[("zone", Json.str "R-1")]] :
            List (List (String × Json))).map aiZoneNameForSet).toFinset).card : ℚ) /
          ((([⟨"R-1", []⟩, ⟨"C-1", []⟩] : List GtReq).map
            (fun r => upperStr r.zone)).toFinset.card : ℚ) :=
  ⟨by simp, C3_zone_accuracy_formula.1 [[("zone", Json.str "R-1")]]
    [⟨"R-1", []⟩, ⟨"C-1", []⟩] (by simp)⟩

/-- C10: with an empty ground-truth list the accuracy calculation returns
all four scores as 0.0 through the early guard, for every extracted-zone
input, so the division by the number of ground-truth zone names is never
reached. -/
theorem C10_empty_ground_truth_all_zero :
    ∀ aiZones : List (List (String × Json)),
      calculateAccuracy aiZones [] = ⟨0, 0, 0, 0⟩ :=
  fun _ => rfl

/-- C9: if no lot-width alias resolves, the mapped interior lot width equals
the resolved frontage; if no lot-depth alias resolves, the mapped depth
equals the width after the width's own fallback; in particular a record with
`frontage=75` and no explicit width or depth yields width 75 and depth 75. -/
theorem C9_width_depth_fallback :
    (∀ interior zoneData : List (String × Json),
       safeNumericOpt (extractFieldValue [interior, zoneData]
         ["min_lot_width_ft", "interior_min_lot_width_ft", "width", "width_ft",
          "lot_width"]) = Option.none →
       ∀ f, getFrontageWithFallback interior zoneData = some f →
         getWidthWithFrontageFallback interior zoneData = some f)
    ∧ (∀ interior zoneData : List (String × Json),
       safeNumericOpt (extractFieldValue [interior, zoneData]
         ["min_lot_depth_ft", "interior_min_lot_depth_ft", "depth", "depth_ft",
          "lot_depth"]) = Option.none →
       getDepthWithFallback interior zoneData =
         getWidthWithFrontageFallback interior zoneData)
    ∧ (buildRequirementData "job1" "Town" "Cty" "NJ" [("frontage", Json.num 75)]
        (7 / 10)).lookup "interior_min_lot_width_ft" =
        some (.float (.finite 75))
    ∧ (buildRequirementData "job1" "Town" "Cty" "NJ" [("frontage", Json.num 75)]
        (7 / 10)).lookup "interior_min_lot_depth_ft" =
        some (.float (.finite 75)) := by
  refine ⟨?_, ?_, by decide, by decide⟩
  · intro interior zoneData h f hf
    simp only [getWidthWithFrontageFallback, h, hf]
  · intro interior zoneData h
    simp only [getDepthWithFallback, h]
    cases hw : getWidthWithFrontageFallback interior zoneData <;> simp [hw]

theorem C9_width_depth_fallback_witness :
    safeNumericOpt (extractFieldValue [[], [("frontage", Json.num 75)]]
      ["min_lot_width_ft", "interior_min_lot_width_ft", "width", "width_ft",
       "lot_width"]) = Option.none
    ∧ getFrontageWithFallback [] [("frontage", Json.num 75)] = some (.finite 75)
    ∧ getWidthWithFrontageFallback [] [("frontage", Json.num 75)] = some (.finite 75) :=
  ⟨rfl, rfl, C9_width_depth_fallback.1 [] [("frontage", Json.num 75)] rfl
    (.finite 75) rfl⟩

def Json.isStr : Json → Bool
  | .str _ => true
  | _ => false

/-- A database value acceptable for a numeric column: a float, an int, or
NULL — anything but a string. -/
def numericOkB : DBVal → Bool
  | .str _ => false
  | _ => true

def finiteOrNoneB : Option PyFloat → Bool
  | Option.none => true
  | some (.finite _) => true
  | some _ => false

/-- The numeric columns of a built requirement record. -/
def numericRequirementFields : List String :=
  ["interior_min_lot_area_sqft", "interior_min_lot_frontage_ft",
   "interior_min_lot_width_ft", "interior_min_lot_depth_ft",
   "corner_min_lot_area_sqft", "corner_min_lot_frontage_ft",
   "corner_min_lot_width_ft", "corner_min_lot_depth_ft",
   "min_circle_diameter_ft", "buildable_lot_area_sqft",
   "principal_front_yard_ft", "principal_side_yard_ft",
   "principal_street_side_yard_ft", "principal_rear_yard_ft",
   "principal_street_rear_yard_ft", "accessory_front_yard_ft",
   "accessory_side_yard_ft", "accessory_street_side_yard_ft",
   "accessory_rear_yard_ft", "accessory_street_rear_yard_ft",
   "max_building_coverage_percent", "max_lot_coverage_percent",
   "max_height_stories", "max_height_feet_total",
   "min_gross_floor_area_first_floor_sqft",
   "min_gross_floor_area_multistory_sqft",
   "max_gross_floor_area_all_structures_sqft",
   "maximum_far", "maximum_density_units_per_acre"]

lemma numericOkB_ofNumOpt (o : Option PyFloat) : numericOkB (ofNumOpt o) = true := by
  cases o <;> rfl

lemma numericOkB_ofIntOpt (o : Option Int) : numericOkB (ofIntOpt o) = true := by
  cases o <;> rfl

/-- C7 counterexample: the string input `"NaN"` coerces to a NaN float, not
to null — `float("NaN")` succeeds in Python — so a built record can carry a
NaN in a numeric field, contradicting the claimed invariant. -/
theorem C7_numeric_invariant_counterexample :
    safeNumeric (.str "NaN") = some PyFloat.nan
    ∧ (buildRequirementData "job1" "Town" "Cty" "NJ"
        [("zone", Json.str "R-1"), ("min_lot_frontage_ft", Json.str "NaN")]
        (7 / 10)).lookup "interior_min_lot_frontage_ft" =
        some (DBVal.float PyFloat.nan) :=
  ⟨rfl, by decide⟩

/-- C7 (amended): every numeric field of a built record is a float, an int
or null — never a string — and a non-finite value can only arise from a
string input (every non-string input coerces to a finite float or null);
string inputs accepted by Python's `float()` as non-finite literals (such
as `"NaN"`) coerce to non-finite floats rather than null. -/
theorem C7_numeric_fields_never_strings :
    (∀ (jobId town county state : String) (zoneData : List (String × Json))
       (conf : ℚ) (fname : String), fname ∈ numericRequirementFields →
       ((buildRequirementData jobId town county state zoneData conf).lookup
          fname).isSome = true
       ∧ numericOkB (((buildRequirementData jobId town county state zoneData
            conf).lookup fname).getD (DBVal.str "")) = true)
    ∧ (∀ j : Json, j.isStr = false → finiteOrNoneB (safeNumeric j) = true) := by
  constructor
  · intro jobId town county state zoneData conf fname hmem
    fin_cases hmem <;>
      first
        | exact ⟨rfl, numericOkB_ofNumOpt _⟩
        | exact ⟨rfl, numericOkB_ofIntOpt _⟩
  · intro j hj
    cases j with
    | str s => simp [Json.isStr] at hj
    | bool b => cases b <;> rfl
    | null => rfl
    | num q => rfl
    | arr xs => rfl
    | obj kvs => rfl

theorem C7_numeric_fields_never_strings_witness :
    ("maximum_far" ∈ numericRequirementFields)
    ∧ numericOkB (((buildRequirementData "job1" "Town" "Cty" "NJ"
        [("zone", Json.str "R-1")] (7 / 10)).lookup "maximum_far").getD
        (DBVal.str "")) = true
    ∧ Json.isStr .null = false ∧ finiteOrNoneB (safeNumeric .null) = true :=
  ⟨by decide, (C7_numeric_fields_never_strings.1 "job1" "Town" "Cty" "NJ"
      [("zone", Json.str "R-1")] (7 / 10) "maximum_far" (by decide)).2,
    rfl, C7_numeric_fields_never_strings.2 .null rfl⟩

/-- C8 counterexample: the five-digit leading-digit rule accepts the
truncated value only in the range 3000..20000, not 1000..50000 as claimed:
12500 (tail value 2500) is left unmodified whatever the zone name, while the
claim predicts 2500. -/
theorem C8_counterexample_12500 :
    fixContaminatedLotArea (some (Json.num 12500)) (.str "") =
      some (.finite 12500)
    ∧ fixContaminatedLotArea (some (Json.num 12500)) (.str "") ≠
      some (.finite 2500) := by
  constructor
  · decide
  · decide

/-- C8 (amended): for a lot-area value whose digit string has exactly 5
digits and starts with 1, 2 or 3, if removing that leading digit yields a
value within 3,000..20,000 (not 1,000..50,000 as claimed) the corrector
removes the leading digit, for every zone name; e.g. 34900 becomes 4900
(while 12500, tail 2500, is out of range and is kept — see the
counterexample). -/
theorem C8_leading_digit_rule :
    (∀ (n : ℕ) (zn : String),
      (natDigits n).length = 5 →
      ((natDigits n).headD 0 = 1 ∨ (natDigits n).headD 0 = 2 ∨
        (natDigits n).headD 0 = 3) →
      3000 ≤ natOfDigits (natDigits n).tail →
      natOfDigits (natDigits n).tail ≤ 20000 →
      fixContaminatedLotArea (some (.num (n : ℚ))) (.str zn) =
        some (.finite ((natOfDigits (natDigits n).tail : ℕ) : ℚ)))
    ∧ fixContaminatedLotArea (some (Json.num 34900)) (.str "") =
      some (.finite 4900) := by
  refine ⟨?_, by decide⟩
  intro n zn h5 hhead h3 h20
  have hz : pyTrunc ((n : ℚ)) = (n : ℤ) := by
    simp [pyTrunc, Int.floor_natCast]
  simp only [fixContaminatedLotArea, fixContaminatedLotAreaJ, Json.isNull,
    safeNumeric, hz, Int.toNat_natCast]
  rw [if_neg (by omega : ¬ ((n : ℤ) < 0))]
  by_cases h1 : ((n : ℚ)) = 15000
  · have hn : n = 15000 := by exact_mod_cast h1
    subst hn
    rw [if_pos h1, show natOfDigits (natDigits 15000).tail = 5000 from by decide]
    norm_num
  rw [if_neg h1]
  by_cases h2 : ((n : ℚ)) = 28000
  · have hn : n = 28000 := by exact_mod_cast h2
    subst hn
    rw [if_pos h2, show natOfDigits (natDigits 28000).tail = 8000 from by decide]
    norm_num
  rw [if_neg h2]
  by_cases h3a : ((n : ℚ)) = 312000
  · have hn : n = 312000 := by exact_mod_cast h3a
    subst hn
    exact absurd h5 (by decide)
  rw [if_neg h3a]
  by_cases h4 : ((n : ℚ)) = 110000
  · have hn : n = 110000 := by exact_mod_cast h4
    subst hn
    exact absurd h5 (by decide)
  rw [if_neg h4]
  by_cases h5a : ((n : ℚ)) = 115000
  · have hn : n = 115000 := by exact_mod_cast h5a
    subst hn
    exact absurd h5 (by decide)
  rw [if_neg h5a]
  by_cases h6 : ((n : ℚ)) = 27500
  · have hn : n = 27500 := by exact_mod_cast h6
    subst hn
    rw [if_pos h6, show natOfDigits (natDigits 27500).tail = 7500 from by decide]
    norm_num
  rw [if_neg h6]
  by_cases h7 : ((n : ℚ)) = 36000
  · have hn : n = 36000 := by exact_mod_cast h7
    subst hn
    rw [if_pos h7, show natOfDigits (natDigits 36000).tail = 6000 from by decide]
    norm_num
  rw [if_neg h7]
  have hcontain : ([1, 2, 3].contains ((natDigits n).headD 0)) = true := by
    rcases hhead with h | h | h <;> rw [h] <;> decide
  simp only [hcontain, decide_eq_true h5, decide_eq_true h3, decide_eq_true h20,
    Bool.and_self, Bool.true_and, if_true]
  rfl

theorem C8_leading_digit_rule_witness :
    (natDigits 34900).length = 5
    ∧ ((natDigits 34900).headD 0 = 1 ∨ (natDigits 34900).headD 0 = 2 ∨
        (natDigits 34900).headD 0 = 3)
    ∧ 3000 ≤ natOfDigits (natDigits 34900).tail
    ∧ natOfDigits (natDigits 34900).tail ≤ 20000
    ∧ fixContaminatedLotArea (some (.num ((34900 : ℕ) : ℚ))) (.str "Residential") =
        some (.finite ((natOfDigits (natDigits 34900).tail : ℕ) : ℚ)) :=
  ⟨by decide, by decide, by decide, by decide,
    C8_leading_digit_rule.1 34900 "Residential" (by decide) (by decide)
      (by decide) (by decide)⟩

/-- The C5 scenario input: leading prose plus a trailing comma. -/
def c5raw : String :=
  "Here is the data: \x7b\"zones\": [\x7b\"zone\":\"R-1\", \"lot_area\":8000\x7d], \x7d"

/-- The well-formed equivalent of `c5raw`. -/
def c5wf : String :=
  "\x7b\"zones\": [\x7b\"zone\":\"R-1\", \"lot_area\":8000\x7d] \x7d"

/-- The document both variants decode to. -/
def c5doc : Json :=
  .obj [("zones", .arr [.obj [("zone", .str "R-1"), ("lot_area", .num 8000)]])]

def dd0 : DocumentData :=
  ⟨some "Springfield", some "Hampden", some "NJ", some "spring.pdf",
    some "spring.pdf"⟩

/-- The slice `_fix_json_string` receives for `c5raw` (first `\x7b` to last
`\x7d`). -/
def c5slice : String :=
  "\x7b\"zones\": [\x7b\"zone\":\"R-1\", \"lot_area\":8000\x7d], \x7d"

/-- C5 (code bug): in the program the prose-plus-trailing-comma scenario
yields ZERO records: tier 1 fails, the brace pair is found, and
`_fix_json_string` raises `NameError` (it uses `re` with no `import re` in
scope), so the outer `except Exception` returns an empty id list and
nothing is stored.  The cleanup the method is written to perform would
repair the slice into exactly the document of the well-formed equivalent,
and processing that well-formed equivalent does yield one zone record with
`interior_min_lot_area_sqft = 8000` — the behaviour the claim and the spec
describe, reachable only once the missing import is fixed. -/
theorem C5_trailing_comma_yields_nothing :
    processGrokResponse "job1" c5raw dd0 [] = ([], [], [])
    ∧ jsonLoads c5raw = Option.none
    ∧ sliceBraces c5raw = some c5slice
    ∧ jsonLoads (fixJsonStringIntended c5slice) = some c5doc
    ∧ jsonLoads c5wf = some c5doc
    ∧ (processGrokResponse "job1" c5wf dd0 []).1.length = 1
    ∧ (lookupStore ("Springfield", "Hampden", "NJ", "R-1")
        (processGrokResponse "job1" c5wf dd0 []).2.1).map
          (fun r => r.lookup "interior_min_lot_area_sqft") =
        some (some (DBVal.float (.finite 8000))) :=
  ⟨rfl, rfl, rfl, rfl, rfl, rfl, rfl⟩

/-! ### Store lemmas and the deduplication invariant (C6) -/

def upsertEventLowKeys (evs : List PEvent) : List String :=
  evs.filterMap (fun e =>
    match e with
    | .upserted k => some (dupKeyOf k.1 k.2.1 k.2.2.1 k.2.2.2)
    | _ => Option.none)

def countSkipEvents (evs : List PEvent) : Nat :=
  (evs.filter (fun e =>
    match e with
    | .skippedDuplicate _ => true
    | _ => false)).length

def countUpsertEvents (evs : List PEvent) : Nat :=
  (evs.filter (fun e =>
    match e with
    | .upserted _ => true
    | _ => false)).length

def countObjZones (zones : List Json) : Nat :=
  (zones.filter (fun z =>
    match z with
    | .obj _ => true
    | _ => false)).length

lemma upsertStore_cons_ne (k : StoreKey) (r : ReqRecord) (e : StoreKey × ReqRecord)
    (es : Store) (h : ¬ e.1 = k) :
    upsertStore k r (e :: es) = e :: upsertStore k r es := by
  by_cases ha : es.any (fun x => x.1 = k) = true <;> simp [upsertStore, h, ha]

lemma lookupStore_upsert_self (k : StoreKey) (r : ReqRecord) (st : Store) :
    lookupStore k (upsertStore k r st) = some r := by
  induction st with
  | nil => simp [upsertStore, lookupStore]
  | cons e es ih =>
    by_cases he : e.1 = k
    · simp [upsertStore, List.any_cons, he, lookupStore]
    · rw [upsertStore_cons_ne k r e es he]
      simp [lookupStore, he, ih]

lemma lookupStore_replaceMap (k k2 : StoreKey) (r : ReqRecord) (st : Store)
    (h : k2 ≠ k) :
    lookupStore k (st.map (fun e => if e.1 = k2 then (k2, r) else e)) =
      lookupStore k st := by
  induction st with
  | nil => rfl
  | cons e es ih =>
    by_cases he : e.1 = k2
    · have hek : e.1 ≠ k := by rw [he]; exact h
      simp [lookupStore, he, hek, h, ih]
    · by_cases hek : e.1 = k <;> simp [lookupStore, he, hek, ih, Ne.symm h]

lemma lookupStore_append_single (k k2 : StoreKey) (r : ReqRecord) (st : Store)
    (h : k2 ≠ k) :
    lookupStore k (st ++ [(k2, r)]) = lookupStore k st := by
  induction st with
  | nil => simp [lookupStore, h]
  | cons e es ih => by_cases hek : e.1 = k <;> simp [lookupStore, hek, ih]

lemma lookupStore_upsert_ne (k k2 : StoreKey) (r : ReqRecord) (st : Store)
    (h : k2 ≠ k) :
    lookupStore k (upsertStore k2 r st) = lookupStore k st := by
  by_cases ha : st.any (fun e => e.1 = k2) = true
  · rw [upsertStore, if_pos ha]
    exact lookupStore_replaceMap k k2 r st h
  · rw [upsertStore, if_neg ha]
    exact lookupStore_append_single k k2 r st h

lemma countKey_eq_zero_of_all_ne (k : StoreKey) (st : Store)
    (h : ∀ e ∈ st, e.1 ≠ k) : countKey k st = 0 := by
  induction st with
  | nil => rfl
  | cons e es ih =>
    have he := h e (List.mem_cons_self e es)
    simp only [countKey, List.filter_cons]
    rw [if_neg (by simpa using he)]
    exact ih (fun x hx => h x (List.mem_cons_of_mem e hx))

lemma map_replace_eq_self (k : StoreKey) (r : ReqRecord) (es : Store)
    (h : ∀ x ∈ es, x.1 ≠ k) :
    es.map (fun x => if x.1 = k then (k, r) else x) = es := by
  induction es with
  | nil => rfl
  | cons e es ih =>
    rw [List.map_cons, if_neg (h e (List.mem_cons_self e es)),
      ih (fun x hx => h x (List.mem_cons_of_mem e hx))]

lemma countKey_upsert_self_eq_one (k : StoreKey) (r : ReqRecord) (st : Store)
    (h : (storeKeys st).Nodup) : countKey k (upsertStore k r st) = 1 := by
  induction st with
  | nil => simp [upsertStore, countKey]
  | cons e es ih =>
    have hnd : (storeKeys es).Nodup := (List.nodup_cons.mp h).2
    have hnm : e.1 ∉ storeKeys es := (List.nodup_cons.mp h).1
    by_cases he : e.1 = k
    · have hkn : ∀ x ∈ es, x.1 ≠ k := fun x hx hxk => by
        exact hnm (by rw [he, ← hxk]; exact List.mem_map_of_mem Prod.fst hx)
      have hrw : upsertStore k r (e :: es) = (k, r) :: es := by
        simp [upsertStore, List.any_cons, he, map_replace_eq_self k r es hkn]
      rw [hrw]
      simp only [countKey, List.filter_cons]
      rw [if_pos (by simp)]
      simp [show (es.filter (fun x => x.1 = k)) = [] from
        List.length_eq_zero.mp (countKey_eq_zero_of_all_ne k es hkn)]
    · rw [upsertStore_cons_ne k r e es he]
      simp only [countKey, List.filter_cons]
      rw [if_neg (by simpa using he)]
      exact ih hnd

lemma storeKeys_mem_upsert (k : StoreKey) (r : ReqRecord) (st : Store) (x : StoreKey)
    (hx : x ∈ storeKeys (upsertStore k r st)) : x = k ∨ x ∈ storeKeys st := by
  induction st with
  | nil =>
    simp [upsertStore, storeKeys] at hx
    exact Or.inl hx
  | cons e es ih =>
    by_cases he : e.1 = k
    · have hrw : upsertStore k r (e :: es) =
          (k, r) :: es.map (fun x => if x.1 = k then (k, r) else x) := by
        simp [upsertStore, List.any_cons, he]
      rw [hrw] at hx
      simp only [storeKeys, List.map_cons, List.mem_cons] at hx
      rcases hx with hx | hx
      · exact Or.inl hx
      · simp only [List.map_map, List.mem_map, Function.comp] at hx
        obtain ⟨y, hy, hyx⟩ := hx
        by_cases hyk : y.1 = k
        · simp only [hyk, if_pos rfl] at hyx
          exact Or.inl hyx.symm
        · rw [if_neg hyk] at hyx
          refine Or.inr ?_
          have hm : y.1 ∈ storeKeys (e :: es) :=
            List.mem_map_of_mem Prod.fst (List.mem_cons_of_mem e hy)
          rwa [hyx] at hm
    · rw [upsertStore_cons_ne k r e es he] at hx
      simp only [storeKeys, List.map_cons, List.mem_cons] at hx
      rcases hx with hx | hx
      · refine Or.inr ?_
        rw [hx]
        exact List.mem_map_of_mem Prod.fst (List.mem_cons_self e es)
      · rcases ih (by simpa [storeKeys] using hx) with h1 | h1
        · exact Or.inl h1
        · refine Or.inr ?_
          simp only [storeKeys, List.map_cons, List.mem_cons]
          exact Or.inr (by simpa [storeKeys] using h1)

lemma storeKeys_upsert_nodup (k : StoreKey) (r : ReqRecord) (st : Store)
    (h : (storeKeys st).Nodup) : (storeKeys (upsertStore k r st)).Nodup := by
  induction st with
  | nil => simp [upsertStore, storeKeys]
  | cons e es ih =>
    have hnd : (storeKeys es).Nodup := (List.nodup_cons.mp h).2
    have hnm : e.1 ∉ storeKeys es := (List.nodup_cons.mp h).1
    by_cases he : e.1 = k
    · have hkn : ∀ x ∈ es, x.1 ≠ k := fun x hx hxk => by
        exact hnm (by rw [he, ← hxk]; exact List.mem_map_of_mem Prod.fst hx)
      have hrw : upsertStore k r (e :: es) = (k, r) :: es := by
        simp [upsertStore, List.any_cons, he, map_replace_eq_self k r es hkn]
      rw [hrw]
      simp only [storeKeys, List.map_cons, List.nodup_cons]
      refine ⟨fun hc => ?_, by simpa [storeKeys] using hnd⟩
      obtain ⟨y, hy, hyx⟩ := List.mem_map.mp hc
      exact hkn y hy hyx
    · rw [upsertStore_cons_ne k r e es he]
      simp only [storeKeys, List.map_cons, List.nodup_cons]
      refine ⟨fun hc => ?_, by simpa [storeKeys] using ih hnd⟩
      rcases storeKeys_mem_upsert k r es e.1 (by simpa [storeKeys] using hc) with h1 | h1
      · exact he h1
      · exact hnm h1

lemma processZonesLoop_events (jobId town county state : String) (conf : ℚ) :
    ∀ (zones : List Json) (seen : List String) (st : Store),
      ((upsertEventLowKeys
          (processZonesLoop jobId town county state conf zones seen st).2.2).Nodup
        ∧ ∀ x ∈ upsertEventLowKeys
            (processZonesLoop jobId town county state conf zones seen st).2.2,
            x ∉ seen)
      ∧ countSkipEvents
            (processZonesLoop jobId town county state conf zones seen st).2.2
          + countUpsertEvents
            (processZonesLoop jobId town county state conf zones seen st).2.2
          = countObjZones zones := by
  intro zones
  induction zones with
  | nil =>
    intro seen st
    simp [processZonesLoop, upsertEventLowKeys, countSkipEvents,
      countUpsertEvents, countObjZones]
  | cons z rest ih =>
    intro seen st
    cases z with
    | obj kvs =>
      by_cases hdup : dupKeyOf town county state (extractZoneName kvs) ∈ seen
      · obtain ⟨⟨hnd, hns⟩, hcnt⟩ := ih seen st
        simp only [processZonesLoop, if_pos hdup]
        refine ⟨⟨by simpa [upsertEventLowKeys] using hnd,
          fun x hx => hns x (by simpa [upsertEventLowKeys] using hx)⟩, ?_⟩
        simp [countSkipEvents, countUpsertEvents, countObjZones,
          List.filter_cons] at hcnt ⊢
        omega
      · obtain ⟨⟨hnd, hns⟩, hcnt⟩ :=
          ih (dupKeyOf town county state (extractZoneName kvs) :: seen)
            (insertZoneRequirements jobId town county state kvs conf st).2
        simp only [processZonesLoop, if_neg hdup]
        constructor
        constructor
        · simp only [upsertEventLowKeys, List.filterMap_cons, List.nodup_cons]
          refine ⟨fun hc => ?_, hnd⟩
          exact (hns _ hc) (List.mem_cons_self _ _)
        · intro x hx
          simp only [upsertEventLowKeys, List.filterMap_cons, List.mem_cons] at hx
          rcases hx with hx | hx
          · rw [hx]; exact hdup
          · exact fun hs => (hns x hx) (List.mem_cons_of_mem _ hs)
        · simp [countSkipEvents, countUpsertEvents, countObjZones,
            List.filter_cons] at hcnt ⊢
          omega
    | null =>
      obtain ⟨⟨hnd, hns⟩, hcnt⟩ := ih seen st
      simp only [processZonesLoop]
      refine ⟨⟨by simpa [upsertEventLowKeys] using hnd,
        fun x hx => hns x (by simpa [upsertEventLowKeys] using hx)⟩, ?_⟩
      simp [countSkipEvents, countUpsertEvents, countObjZones,
        List.filter_cons] at hcnt ⊢
      omega
    | bool b =>
      obtain ⟨⟨hnd, hns⟩, hcnt⟩ := ih seen st
      simp only [processZonesLoop]
      refine ⟨⟨by simpa [upsertEventLowKeys] using hnd,
        fun x hx => hns x (by simpa [upsertEventLowKeys] using hx)⟩, ?_⟩
      simp [countSkipEvents, countUpsertEvents, countObjZones,
        List.filter_cons] at hcnt ⊢
      omega
    | num q =>
      obtain ⟨⟨hnd, hns⟩, hcnt⟩ := ih seen st
      simp only [processZonesLoop]
      refine ⟨⟨by simpa [upsertEventLowKeys] using hnd,
        fun x hx => hns x (by simpa [upsertEventLowKeys] using hx)⟩, ?_⟩
      simp [countSkipEvents, countUpsertEvents, countObjZones,
        List.filter_cons] at hcnt ⊢
      omega
    | str sv =>
      obtain ⟨⟨hnd, hns⟩, hcnt⟩ := ih seen st
      simp only [processZonesLoop]
      refine ⟨⟨by simpa [upsertEventLowKeys] using hnd,
        fun x hx => hns x (by simpa [upsertEventLowKeys] using hx)⟩, ?_⟩
      simp [countSkipEvents, countUpsertEvents, countObjZones,
        List.filter_cons] at hcnt ⊢
      omega
    | arr xs =>
      obtain ⟨⟨hnd, hns⟩, hcnt⟩ := ih seen st
      simp only [processZonesLoop]
      refine ⟨⟨by simpa [upsertEventLowKeys] using hnd,
        fun x hx => hns x (by simpa [upsertEventLowKeys] using hx)⟩, ?_⟩
      simp [countSkipEvents, countUpsertEvents, countObjZones,
        List.filter_cons] at hcnt ⊢
      omega

/-- C6: within one batch the upserted records have pairwise distinct
case-insensitive `(town, county, state, zone)` composite keys — at most one
persisted record per key — and every further occurrence of an already-seen
key is skipped with an explicit skipped-duplicate signal (skips and upserts
account for every dictionary-shaped zone, so no silent drop); upserting the
same key again, within or across batches, leaves exactly one stored row
holding the later write's values. -/
theorem C6_dedup_and_upsert :
    (∀ (jobId town county state : String) (conf : ℚ) (zones : List Json)
       (st : Store),
       (upsertEventLowKeys
         (processZonesLoop jobId town county state conf zones [] st).2.2).Nodup)
    ∧ (∀ (jobId town county state : String) (conf : ℚ) (zones : List Json)
       (st : Store),
       countSkipEvents
           (processZonesLoop jobId town county state conf zones [] st).2.2
         + countUpsertEvents
           (processZonesLoop jobId town county state conf zones [] st).2.2
         = countObjZones zones)
    ∧ (∀ (k : StoreKey) (r1 r2 : ReqRecord) (st : Store),
       (storeKeys st).Nodup →
       lookupStore k (upsertStore k r2 (upsertStore k r1 st)) = some r2
       ∧ countKey k (upsertStore k r2 (upsertStore k r1 st)) = 1) := by
  refine ⟨?_, ?_, ?_⟩
  · intro jobId town county state conf zones st
    exact ((processZonesLoop_events jobId town county state conf zones [] st).1).1
  · intro jobId town county state conf zones st
    exact (processZonesLoop_events jobId town county state conf zones [] st).2
  · intro k r1 r2 st h
    exact ⟨lookupStore_upsert_self k r2 _,
      countKey_upsert_self_eq_one k r2 _ (storeKeys_upsert_nodup k r1 st h)⟩

theorem C6_dedup_and_upsert_witness :
    (storeKeys ([] : Store)).Nodup
    ∧ lookupStore ("Town", "Cty", "NJ", "R-1")
        (upsertStore ("Town", "Cty", "NJ", "R-1") [("zone", DBVal.str "new")]
          (upsertStore ("Town", "Cty", "NJ", "R-1") [("zone", DBVal.str "old")] [])) =
        some [("zone", DBVal.str "new")]
    ∧ countKey ("Town", "Cty", "NJ", "R-1")
        (upsertStore ("Town", "Cty", "NJ", "R-1") [("zone", DBVal.str "new")]
          (upsertStore ("Town", "Cty", "NJ", "R-1") [("zone", DBVal.str "old")] [])) = 1 :=
  ⟨List.nodup_nil,
    (C6_dedup_and_upsert.2.2 ("Town", "Cty", "NJ", "R-1")
      [("zone", DBVal.str "old")] [("zone", DBVal.str "new")] [] List.nodup_nil).1,
    (C6_dedup_and_upsert.2.2 ("Town", "Cty", "NJ", "R-1")
      [("zone", DBVal.str "old")] [("zone", DBVal.str "new")] [] List.nodup_nil).2⟩

lemma mem_takeWhile_pred (p : Char → Bool) :
    ∀ (l : List Char) (c : Char), c ∈ l.takeWhile p → p c = true := by
  intro l
  induction l with
  | nil => intro c hc; simp [List.takeWhile] at hc
  | cons x xs ih =>
    intro c hc
    rw [List.takeWhile_cons] at hc
    by_cases hx : p x = true
    · rw [if_pos hx] at hc
      rcases List.mem_cons.mp hc with h1 | h1
      · rwa [h1]
      · exact ih c h1
    · rw [if_neg hx] at hc
      simp at hc

lemma mk_ne_empty_of_ne_nil (l : List Char) (h : l ≠ []) :
    (⟨l⟩ : String) ≠ "" := by
  intro hc
  apply h
  have : (⟨l⟩ : String).data = ("" : String).data := by rw [hc]
  simpa using this

lemma digit_idClassChar (c : Char) (h : c.isDigit = true) : idClassChar c = true := by
  simp [idClassChar, h]

lemma matchPatZoneLabel_prop :
    ∀ cs cap rest, matchPatZoneLabel cs = some (cap, rest) →
      cap ≠ "" ∧ ∀ c ∈ cap.data, idClassChar c = true := by
  intro cs cap rest h
  unfold matchPatZoneLabel at h
  cases hal : (match matchCaseLit "zone".data cs with
    | some r => some r
    | none => matchCaseLit "district".data cs) with
  | none => rw [hal] at h; exact absurd h (by simp)
  | some r =>
    rw [hal] at h
    simp only at h
    by_cases he : ((r.dropWhile (fun c => c = ':' || reWsChar c)).takeWhile
        idClassChar).isEmpty = true
    · rw [if_pos he] at h
      exact absurd h (by simp)
    · rw [if_neg he] at h
      simp only [Option.some.injEq, Prod.mk.injEq] at h
      obtain ⟨hcap, _⟩ := h
      subst hcap
      refine ⟨mk_ne_empty_of_ne_nil _ (by simpa [List.isEmpty_iff] using he), ?_⟩
      intro c hc
      exact mem_takeWhile_pred idClassChar _ c hc

lemma matchRCCode_prop :
    ∀ cs cap rest, matchRCCode cs = some (cap, rest) →
      cap ≠ "" ∧ ∀ c ∈ cap.data, idClassChar c = true := by
  intro cs cap rest h
  unfold matchRCCode at h
  cases cs with
  | nil => exact absurd h (by simp)
  | cons c1 rest0 =>
    cases rest0 with
    | nil => exact absurd h (by simp)
    | cons c2 rest2 =>
      simp only at h
      by_cases hc2 : c2 = '-'
      · rw [if_pos hc2] at h
        by_cases hc1 : (c1 = 'R' || c1 = 'C' || c1 = 'r' || c1 = 'c') = true
        · rw [if_pos hc1] at h
          by_cases hds : (rest2.takeWhile Char.isDigit).isEmpty = true
          · rw [if_pos hds] at h
            exact absurd h (by simp)
          · rw [if_neg hds] at h
            simp only [Option.some.injEq, Prod.mk.injEq] at h
            obtain ⟨hcap, _⟩ := h
            subst hcap
            refine ⟨mk_ne_empty_of_ne_nil _ (by simp), ?_⟩
            intro c hc
            simp only [List.mem_cons] at hc
            rcases hc with h1 | h1 | h1
            · subst h1
              simp only [Bool.or_eq_true, decide_eq_true_eq] at hc1
              rcases hc1 with ((h2 | h2) | h2) | h2 <;> subst h2 <;> decide
            · subst h1; decide
            · exact digit_idClassChar c (mem_takeWhile_pred Char.isDigit rest2 c h1)
        · rw [if_neg hc1] at h
          exact absurd h (by simp)
      · rw [if_neg hc2] at h
        exact absurd h (by simp)

lemma oneLetterAlt_prop (c1 : Char) (h1 : c1.isAlpha = true) (rest1 : List Char)
    (cap : String) (rest : List Char)
    (h : (match rest1 with
          | c2 :: rest2 =>
            if c2 = '-' then
              let ds := rest2.takeWhile Char.isDigit
              if ds.isEmpty then none
              else some ((⟨c1 :: '-' :: ds⟩ : String), rest2.drop ds.length)
            else none
          | [] => none) = some (cap, rest)) :
    cap ≠ "" ∧ ∀ c ∈ cap.data, idClassChar c = true := by
  cases rest1 with
  | nil => exact absurd h (by simp)
  | cons c2 rest2 =>
    simp only at h
    by_cases hc2 : c2 = '-'
    · rw [if_pos hc2] at h
      by_cases hds : (rest2.takeWhile Char.isDigit).isEmpty = true
      · rw [if_pos hds] at h
        exact absurd h (by simp)
      · rw [if_neg hds] at h
        simp only [Option.some.injEq, Prod.mk.injEq] at h
        obtain ⟨hcap, _⟩ := h
        subst hcap
        refine ⟨mk_ne_empty_of_ne_nil _ (by simp), ?_⟩
        intro c hc
        simp only [List.mem_cons] at hc
        rcases hc with hx | hx | hx
        · subst hx; simp [idClassChar, h1]
        · subst hx; decide
        · exact digit_idClassChar c (mem_takeWhile_pred Char.isDigit rest2 c hx)
    · rw [if_neg hc2] at h
      exact absurd h (by simp)

lemma matchTwoLetterCode_prop :
    ∀ cs cap rest, matchTwoLetterCode cs = some (cap, rest) →
      cap ≠ "" ∧ ∀ c ∈ cap.data, idClassChar c = true := by
  intro cs cap rest h
  unfold matchTwoLetterCode at h
  cases cs with
  | nil => exact absurd h (by simp)
  | cons c1 rest1 =>
    simp only at h
    by_cases h1 : c1.isAlpha = true
    · rw [if_pos h1] at h
      cases rest1 with
      | nil => exact oneLetterAlt_prop c1 h1 [] cap rest (by simpa using h)
      | cons c2 rest2 =>
        cases rest2 with
        | nil => exact oneLetterAlt_prop c1 h1 [c2] cap rest (by simpa using h)
        | cons c3 rest3 =>
          simp only at h
          by_cases hc3 : c3 = '-'
          · rw [if_pos hc3] at h
            by_cases h2 : c2.isAlpha = true
            · rw [if_pos h2] at h
              by_cases hds : (rest3.takeWhile Char.isDigit).isEmpty = true
              · rw [if_pos hds] at h
                exact oneLetterAlt_prop c1 h1 (c2 :: c3 :: rest3) cap rest (by simpa using h)
              · rw [if_neg hds] at h
                simp only [Option.some.injEq, Prod.mk.injEq] at h
                obtain ⟨hcap, _⟩ := h
                subst hcap
                refine ⟨mk_ne_empty_of_ne_nil _ (by simp), ?_⟩
                intro c hc
                simp only [List.mem_cons] at hc
                rcases hc with hx | hx | hx | hx
                · subst hx; simp [idClassChar, h1]
                · subst hx; simp [idClassChar, h2]
                · subst hx; decide
                · exact digit_idClassChar c (mem_takeWhile_pred Char.isDigit rest3 c hx)
            · rw [if_neg h2] at h
              exact oneLetterAlt_prop c1 h1 (c2 :: c3 :: rest3) cap rest (by simpa using h)
          · rw [if_neg hc3] at h
            exact oneLetterAlt_prop c1 h1 (c2 :: c3 :: rest3) cap rest (by simpa using h)
    · rw [if_neg h1] at h
      exact absurd h (by simp)

lemma findallAux_prop (m : List Char → Option (String × List Char))
    (P : String → Prop)
    (hm : ∀ cs cap rest, m cs = some (cap, rest) → P cap) :
    ∀ (f : Nat) (cs : List Char), ∀ cap ∈ findallAux m f cs, P cap := by
  intro f
  induction f with
  | zero => intro cs cap hc; simp [findallAux] at hc
  | succ f ih =>
    intro cs cap hc
    cases cs with
    | nil => simp [findallAux] at hc
    | cons c rest =>
      cases hm2 : m (c :: rest) with
      | none =>
        rw [findallAux, hm2] at hc
        exact ih rest cap hc
      | some pr =>
        rw [findallAux, hm2] at hc
        rcases List.mem_cons.mp hc with h1 | h1
        · subst h1
          exact hm (c :: rest) pr.1 pr.2 (by rw [hm2])
        · exact ih pr.2 cap h1

/-! ### The regex fallback emits clean zone stubs (C4) -/

lemma dropWhile_eq_self_of_all (p : Char → Bool) (l : List Char)
    (h : ∀ c ∈ l, p c = false) : l.dropWhile p = l := by
  cases l with
  | nil => rfl
  | cons c cs => simp [List.dropWhile_cons, h c (List.mem_cons_self c cs)]

lemma stripChars_eq_self (l : List Char) (h : ∀ c ∈ l, pyWsChar c = false) :
    stripChars l = l := by
  unfold stripChars
  rw [dropWhile_eq_self_of_all _ l h,
    dropWhile_eq_self_of_all _ l.reverse (fun c hc => h c (List.mem_reverse.mp hc)),
    List.reverse_reverse]

lemma removeCaretDigitsAux_eq_self : ∀ (f : Nat) (l : List Char),
    (∀ c ∈ l, c ≠ '^') → removeCaretDigitsAux f l = l := by
  intro f
  induction f with
  | zero => intro l _; rfl
  | succ f ih =>
    intro l h
    cases l with
    | nil => rfl
    | cons c cs =>
      have hc := h c (List.mem_cons_self c cs)
      simp only [removeCaretDigitsAux, if_neg hc]
      rw [ih cs (fun x hx => h x (List.mem_cons_of_mem c hx))]

lemma removeParenDigitsAux_eq_self : ∀ (f : Nat) (l : List Char),
    (∀ c ∈ l, c ≠ '(') → removeParenDigitsAux f l = l := by
  intro f
  induction f with
  | zero => intro l _; rfl
  | succ f ih =>
    intro l h
    cases l with
    | nil => rfl
    | cons c cs =>
      have hc := h c (List.mem_cons_self c cs)
      simp only [removeParenDigitsAux, if_neg hc]
      rw [ih cs (fun x hx => h x (List.mem_cons_of_mem c hx))]

lemma idClassChar_not_ws (c : Char) (h : idClassChar c = true) :
    pyWsChar c = false := by
  cases hpw : pyWsChar c
  · rfl
  · exfalso
    simp only [pyWsChar, Bool.or_eq_true, decide_eq_true_eq] at hpw
    rcases hpw with ((((h1 | h1) | h1) | h1) | h1) | h1 <;> subst h1 <;>
      exact absurd h (by decide)

lemma idClassChar_not_superscript (c : Char) (h : idClassChar c = true) :
    isSuperscriptDigit c = false := by
  cases hpw : isSuperscriptDigit c
  · rfl
  · exfalso
    have hmem : c ∈ superscriptDigits := by
      simpa [isSuperscriptDigit] using hpw
    simp only [superscriptDigits, List.mem_cons, List.not_mem_nil, or_false] at hmem
    rcases hmem with h1 | h1 | h1 | h1 | h1 | h1 | h1 | h1 | h1 | h1 <;> subst h1 <;>
      exact absurd h (by decide)

lemma idClassChar_ne_caret (c : Char) (h : idClassChar c = true) : c ≠ '^' := by
  intro hc
  subst hc
  exact absurd h (by decide)

lemma idClassChar_ne_paren (c : Char) (h : idClassChar c = true) : c ≠ '(' := by
  intro hc
  subst hc
  exact absurd h (by decide)

/-- A non-empty string of identifier-class characters passes through
trimming and footnote cleaning unchanged, so the zone stub built for a
captured code keeps the code as its zone name. -/
lemma extractZoneName_clean (z : String) (hz : z ≠ "")
    (h : ∀ c ∈ z.data, idClassChar c = true) :
    extractZoneName [("zone", .str z)] = z := by
  have hstrip : pyStrip z = z := by
    show (⟨stripChars z.data⟩ : String) = z
    rw [stripChars_eq_self z.data (fun c hc => idClassChar_not_ws c (h c hc))]
  have hfoot : removeFootnoteMarks z.data = z.data := by
    simp only [removeFootnoteMarks]
    have hf1 : z.data.filter (fun c => !isSuperscriptDigit c) = z.data := by
      refine List.filter_eq_self.mpr (fun c hc => ?_)
      rw [idClassChar_not_superscript c (h c hc)]
      rfl
    rw [hf1,
      removeCaretDigitsAux_eq_self _ _ (fun c hc => idClassChar_ne_caret c (h c hc)),
      removeParenDigitsAux_eq_self _ _ (fun c hc => idClassChar_ne_paren c (h c hc))]
  have hclean : cleanZoneNameFootnotes z = z := by
    show (⟨stripChars (removeFootnoteMarks z.data)⟩ : String) = z
    rw [hfoot, stripChars_eq_self z.data (fun c hc => idClassChar_not_ws c (h c hc))]
  simp [extractZoneName, jget, pyStr, hstrip, hclean, hz, truthy]

lemma dedupFirst_aux_mem :
    ∀ (l acc : List String) (x : String),
      x ∈ l.foldl (fun acc x => if x ∈ acc then acc else acc ++ [x]) acc →
      x ∈ acc ∨ x ∈ l := by
  intro l
  induction l with
  | nil => intro acc x hx; exact Or.inl hx
  | cons y ys ih =>
    intro acc x hx
    rw [List.foldl_cons] at hx
    rcases ih _ x hx with h1 | h1
    · by_cases hy : y ∈ acc
      · rw [if_pos hy] at h1
        exact Or.inl h1
      · rw [if_neg hy] at h1
        rcases List.mem_append.mp h1 with h2 | h2
        · exact Or.inl h2
        · simp only [List.mem_singleton] at h2
          exact Or.inr (h2 ▸ List.mem_cons_self y ys)
    · exact Or.inr (List.mem_cons_of_mem y h1)

lemma dedupFirst_mem (xs : List String) (x : String) (h : x ∈ dedupFirst xs) :
    x ∈ xs := by
  rcases dedupFirst_aux_mem xs [] x h with h1 | h1
  · simp at h1
  · exact h1

lemma dedupFirst_aux_nodup :
    ∀ (l acc : List String), acc.Nodup →
      (l.foldl (fun acc x => if x ∈ acc then acc else acc ++ [x]) acc).Nodup := by
  intro l
  induction l with
  | nil => intro acc h; exact h
  | cons y ys ih =>
    intro acc h
    rw [List.foldl_cons]
    by_cases hy : y ∈ acc
    · rw [if_pos hy]
      exact ih acc h
    · rw [if_neg hy]
      refine ih _ ?_
      simp [List.nodup_append, h, hy]

lemma dedupFirst_nodup (xs : List String) : (dedupFirst xs).Nodup :=
  dedupFirst_aux_nodup xs [] List.nodup_nil

/-- Every code found by the regex fallback is a non-empty string of
identifier-class characters. -/
lemma fallbackZoneCodes_clean (raw : String) :
    ∀ z ∈ fallbackZoneCodes raw, z ≠ "" ∧ ∀ c ∈ z.data, idClassChar c = true := by
  intro z hz
  have hz2 := dedupFirst_mem _ z hz
  rcases List.mem_append.mp hz2 with h1 | h1
  · rcases List.mem_append.mp h1 with h2 | h2
    · exact findallAux_prop matchPatZoneLabel _
        (fun cs cap rest h => matchPatZoneLabel_prop cs cap rest h) _ _ z h2
    · exact findallAux_prop matchTwoLetterCode _
        (fun cs cap rest h => matchTwoLetterCode_prop cs cap rest h) _ _ z h2
  · exact findallAux_prop matchRCCode _
      (fun cs cap rest h => matchRCCode_prop cs cap rest h) _ _ z h1

lemma insertStubs_lookup_preserved (jobId t c s : String) :
    ∀ (codes : List String) (st : Store) (k : StoreKey),
      (∀ w ∈ codes, (t, c, s, extractZoneName [("zone", Json.str w)]) ≠ k) →
      lookupStore k (insertStubs jobId t c s codes st).2 = lookupStore k st := by
  intro codes
  induction codes with
  | nil => intro st k _; rfl
  | cons w ws ih =>
    intro st k h
    simp only [insertStubs, insertZoneRequirements]
    rw [ih _ k (fun x hx => h x (List.mem_cons_of_mem w hx))]
    exact lookupStore_upsert_ne k _ _ st (h w (List.mem_cons_self w ws))

lemma insertStubs_lookup_found (jobId t c s : String) :
    ∀ (codes : List String) (st : Store),
      (∀ w ∈ codes, extractZoneName [("zone", Json.str w)] = w) →
      codes.Nodup →
      ∀ z ∈ codes,
        lookupStore (t, c, s, z) (insertStubs jobId t c s codes st).2 =
          some (buildRequirementData jobId t c s [("zone", Json.str z)] (3 / 10)) := by
  intro codes
  induction codes with
  | nil => intro st _ _ z hz; simp at hz
  | cons w ws ih =>
    intro st hclean hnd z hz
    rcases List.mem_cons.mp hz with h1 | h1
    · subst h1
      simp only [insertStubs, insertZoneRequirements]
      have hne : ∀ x ∈ ws,
          (t, c, s, extractZoneName [("zone", Json.str x)]) ≠ (t, c, s, z) := by
        intro x hx hcon
        rw [hclean x (List.mem_cons_of_mem z hx)] at hcon
        have hxz : x = z := by
          simpa [Prod.ext_iff] using hcon
        exact (List.nodup_cons.mp hnd).1 (hxz ▸ hx)
      rw [insertStubs_lookup_preserved jobId t c s ws _ _ hne,
        hclean z (List.mem_cons_self z ws)]
      exact lookupStore_upsert_self _ _ _
    · simp only [insertStubs, insertZoneRequirements]
      exact ih _ (fun x hx => hclean x (List.mem_cons_of_mem w hx))
        (List.nodup_cons.mp hnd).2 z h1

/-- A failing response that does contain a brace pair: the claim's fallback
would find the zone code `R-7` inside it. -/
def c4bad : String := "bad json \x7b R-7 \x7d"

/-- C4 (code bug): no exception reaches the caller (the embedding is total,
mirroring the catch-all handlers), but the claimed degradation to the regex
fallback happens only when the failed response contains NO `\x7b...\x7d` pair
or when a `raw_response` wrapper payload fails to parse.  When a brace pair
is present, tier 2 calls `_fix_json_string`, which raises `NameError` (it
uses `re` with no `import re` in scope); the outer `except Exception`
returns an empty id list and nothing is persisted — the response "returns
nothing" instead of degrading.  When the fallback IS reached, it persists
one minimal stub per found zone code at the fixed low confidence 0.3, as
the claim describes.  The concrete input `c4bad` shows the divergence: the
regex scan would find `R-7`, yet processing returns no ids and leaves the
store empty. -/
theorem C4_missing_import_breaks_fallback :
    (∀ (jobId raw : String) (dd : DocumentData) (st : Store) (sl : String),
       jsonLoads raw = Option.none → sliceBraces raw = some sl →
       processGrokResponse jobId raw dd st = ([], st, []))
    ∧ (∀ (jobId raw : String) (dd : DocumentData) (st : Store),
       jsonLoads raw = Option.none → sliceBraces raw = Option.none →
       processGrokResponse jobId raw dd st =
         extractZonesFallback jobId raw dd Option.none st)
    ∧ (∀ (jobId raw : String) (dd : DocumentData) (st : Store) (d : Json)
        (s : String),
       jsonLoads raw = some d →
       jsonGet d "raw_response" = some (.str s) →
       jsonLoads s = Option.none →
       processGrokResponse jobId raw dd st =
         extractZonesFallback jobId raw dd Option.none st)
    ∧ (∀ (jobId raw : String) (dd : DocumentData) (st : Store) (z : String),
       z ∈ fallbackZoneCodes raw → z.length < 50 →
       lookupStore (fallbackTown jobId dd, fallbackCounty dd, fallbackState dd, z)
         ((extractZonesFallback jobId raw dd Option.none st).2.1) =
         some (buildRequirementData jobId (fallbackTown jobId dd)
           (fallbackCounty dd) (fallbackState dd) [("zone", Json.str z)]
           (3 / 10)))
    ∧ processGrokResponse "job1" c4bad dd0 [] = ([], [], [])
    ∧ ("R-7" ∈ fallbackZoneCodes c4bad) := by
  refine ⟨?_, ?_, ?_, ?_, rfl, by decide⟩
  · intro jobId raw dd st sl h1 h2
    simp only [processGrokResponse, h1, h2]
  · intro jobId raw dd st h1 h2
    simp only [processGrokResponse, h1, h2]
  · intro jobId raw dd st d s h1 h2 h3
    simp only [processGrokResponse, h1]
    cases d with
    | obj kvs =>
      have h2' : jget kvs "raw_response" = some (.str s) := by simpa [jsonGet] using h2
      simp only [afterParse, h2', h3]
    | null => exact absurd h2 (by simp [jsonGet])
    | bool b => exact absurd h2 (by simp [jsonGet])
    | num q => exact absurd h2 (by simp [jsonGet])
    | str sv => exact absurd h2 (by simp [jsonGet])
    | arr xs => exact absurd h2 (by simp [jsonGet])
  · intro jobId raw dd st z hz hlen
    have hcl := fallbackZoneCodes_clean raw
    have hzne : z ≠ "" := (hcl z hz).1
    have hmem : z ∈ (fallbackZoneCodes raw).filter
        (fun z => z ≠ "" && z.length < 50) := by
      refine List.mem_filter.mpr ⟨hz, ?_⟩
      simp [hzne, hlen]
    have hcleanAll : ∀ w ∈ (fallbackZoneCodes raw).filter
        (fun z => z ≠ "" && z.length < 50),
        extractZoneName [("zone", Json.str w)] = w := by
      intro w hw
      have hw2 := List.mem_filter.mp hw
      exact extractZoneName_clean w (hcl w hw2.1).1 (hcl w hw2.1).2
    have hnd : ((fallbackZoneCodes raw).filter
        (fun z => z ≠ "" && z.length < 50)).Nodup :=
      (dedupFirst_nodup _).filter _
    show lookupStore _ ((extractZonesFallback jobId raw dd Option.none st).2.1) = _
    simp only [extractZonesFallback]
    exact insertStubs_lookup_found jobId (fallbackTown jobId dd)
      (fallbackCounty dd) (fallbackState dd) _ st hcleanAll hnd z hmem

theorem C4_missing_import_breaks_fallback_witness :
    jsonLoads c4bad = Option.none
    ∧ sliceBraces c4bad = some "\x7b R-7 \x7d"
    ∧ processGrokResponse "job1" c4bad dd0 [] = ([], [], [])
    ∧ jsonLoads "no json here R-7" = Option.none
    ∧ sliceBraces "no json here R-7" = Option.none
    ∧ processGrokResponse "job1" "no json here R-7" dd0 [] =
        extractZonesFallback "job1" "no json here R-7" dd0 Option.none []
    ∧ ("R-7" ∈ fallbackZoneCodes "no json here R-7")
    ∧ lookupStore (fallbackTown "job1" dd0, fallbackCounty dd0, fallbackState dd0,
        "R-7") ((extractZonesFallback "job1" "no json here R-7" dd0
          Option.none []).2.1) =
        some (buildRequirementData "job1" (fallbackTown "job1" dd0)
          (fallbackCounty dd0) (fallbackState dd0) [("zone", Json.str "R-7")]
          (3 / 10)) :=
  ⟨rfl, rfl,
    C4_missing_import_breaks_fallback.1 "job1" c4bad dd0 [] "\x7b R-7 \x7d" rfl rfl,
    rfl, rfl,
    C4_missing_import_breaks_fallback.2.1 "job1" "no json here R-7" dd0 [] rfl rfl,
    by decide,
    C4_missing_import_breaks_fallback.2.2.2.1 "job1" "no json here R-7" dd0 [] "R-7"
      (by decide) (by decide)⟩

end
